import Mathlib

/-!
Verification of the Docdata payment-status reconciliation engine of
`oscar_docdata/interface.py` (django-oscar-docdata).

The embedding below translates the reconciliation core of `interface.py`:
`_store_report`, `_store_report_lines`, `_process_authorized_payment`,
`_get_payment_sum`, `_set_status`, the `status_mapping` table and the
signal helper `order_status_changed`.

Modelling conventions:

* Monetary values are kept in integer minor units (cents).  The Python code
  stores `Decimal(x) / 100`; we keep the integer `x` itself, which is a
  bijective encoding, and all comparisons in the decision logic are made on
  the raw integer totals exactly as in the source.
* Timestamps (`order.created`, `now()`) are integer seconds;
  `timedelta(days=21)` becomes `21 * 86400`.
* `hasattr(report, 'payment')` is modelled by an `Option` field; an absent
  `capture`/`refund`/`chargeback` block is the empty list (spec section 9).
* The ORM store is a list of payment rows; `save()` of a row is an upsert
  keyed on `payment_id` (the spec's lock-and-upsert abstract store,
  sections 1 and 4.2; `models.py` is not part of the sources).
* Events are the emitted signals `payment_added`, `payment_updated` and
  `order_status_changed`, collected in emission order.
* The concurrent create/create race of section 4.2 is driven by an oracle
  `race : Nat -> Bool`: `race id = true` means another pass committed a row
  for `id` between our failed lookup and our insert, so the insert raises
  `IntegrityError`.  The handler then rolls the savepoint back, but its
  very first statement after the rollback formats the warning message
  `"... payment id {0}: {1}".format(payment.id)` (interface.py line 422)
  with one argument for two replacement fields: `str.format` raises
  `IndexError` before the retry save, before `added = False` and before any
  signal, and no enclosing handler catches it.
* A Python exception escaping the pass (the `report_payments[-1]` indexing
  on an empty list, or the `IndexError` from the broken warning format in
  the `IntegrityError` handler) is modelled by an overall `Option` result:
  `none` means the pass aborted without assigning a status or committing
  anything.
-/

namespace OscarDocdata

namespace DocdataOrder

/-- Modelled from the spec: the order status constants of
`DocdataOrder` (`models.py` is not under `src/`); spec section 3 lists the
ten recognized statuses. -/
def STATUS_NEW : String := "new"

def STATUS_IN_PROGRESS : String := "in_progress"

def STATUS_PENDING : String := "pending"

def STATUS_PAID : String := "paid"

def STATUS_PAID_REFUNDED : String := "paid_refunded"

def STATUS_REFUNDED : String := "refunded"

def STATUS_CANCELLED : String := "cancelled"

def STATUS_CHARGED_BACK : String := "charged_back"

def STATUS_EXPIRED : String := "expired"

def STATUS_UNKNOWN : String := "unknown"

/-- Modelled from the spec: the recognized status set
(`dict(DocdataOrder.STATUS_CHOICES)` keys; spec sections 3 and 7). -/
def STATUS_CHOICES : List String :=
  [STATUS_NEW, STATUS_IN_PROGRESS, STATUS_PENDING, STATUS_PAID,
   STATUS_PAID_REFUNDED, STATUS_REFUNDED, STATUS_CANCELLED,
   STATUS_CHARGED_BACK, STATUS_EXPIRED, STATUS_UNKNOWN]

end DocdataOrder

namespace DocdataClient

/-- Modelled from the spec: the gateway authorization status constants of
`DocdataClient` (`gateway.py` is not under `src/`).  Spec section 4.3 lists
them; values are distinct uppercase tokens.  `STATUS_AUTHORIZED` must equal
the literal `"AUTHORIZED"` that `interface.py` compares against. -/
def STATUS_NEW : String := "NEW"

def STATUS_STARTED : String := "STARTED"

def STATUS_REDIRECTED_FOR_AUTHENTICATION : String := "REDIRECTED_FOR_AUTHENTICATION"

def STATUS_AUTHORIZATION_REQUESTED : String := "AUTHORIZATION_REQUESTED"

def STATUS_AUTHORIZED : String := "AUTHORIZED"

def STATUS_PAID : String := "PAID"

def STATUS_CANCELLED : String := "CANCELLED"

def STATUS_CHARGED_BACK : String := "CHARGED_BACK"

def STATUS_CONFIRMED_PAID : String := "CONFIRMED_PAID"

def STATUS_CONFIRMED_CHARGEDBACK : String := "CONFIRMED_CHARGEDBACK"

def STATUS_CLOSED_SUCCESS : String := "CLOSED_SUCCESS"

def STATUS_CLOSED_CANCELLED : String := "CLOSED_CANCELLED"

end DocdataClient

/-- An XML amount: integer minor units plus the `_currency` attribute. -/
structure Amount where
  value : Int
  currency : String
  deriving DecidableEq, Repr

/-- One `<capture>`, `<refund>` or `<chargeback>` element of an
authorization block (`{status, amount, reason?}`; the reason is only
logged). -/
structure SubLine where
  status : String
  amount : Amount
  deriving DecidableEq, Repr

/-- The `authorization` block of one report payment entry.  An absent
`capture`/`refund`/`chargeback` attribute is the empty list. -/
structure Authorization where
  status : String
  amount : Amount
  confidenceLevel : String
  capture : List SubLine
  refund : List SubLine
  chargeback : List SubLine
  deriving DecidableEq, Repr

/-- One `ns0:payment` entry of the status report. -/
structure PaymentReport where
  id : Nat
  paymentMethod : String
  authorization : Authorization
  deriving DecidableEq, Repr

/-- The `approximateTotals` block (integer minor units) with its
`_exchangedTo` attribute. -/
structure ApproximateTotals where
  totalRegistered : Int
  totalShopperPending : Int
  totalAcquirerPending : Int
  totalAcquirerApproved : Int
  totalCaptured : Int
  totalRefunded : Int
  totalChargedback : Int
  exchangedTo : String
  deriving DecidableEq, Repr

/-- A status report; `payment = none` models `hasattr(report, 'payment')`
being false. -/
structure Report where
  approximateTotals : ApproximateTotals
  payment : Option (List PaymentReport)
  deriving DecidableEq, Repr

/-- The order aggregate; decimal fields are kept in minor units. -/
structure DocdataOrder where
  order_key : String
  currency : String
  total_gross_amount : Int
  status : String
  created : Int
  total_registered : Int
  total_shopper_pending : Int
  total_acquirer_pending : Int
  total_acquirer_approved : Int
  total_captured : Int
  total_refunded : Int
  total_charged_back : Int
  deriving DecidableEq, Repr

/-- One persisted `DocdataPayment` row; `docdata_order` is the foreign key
(the owning order's key). -/
structure DocdataPayment where
  docdata_order : String
  payment_id : Nat
  payment_method : String
  confidence_level : String
  amount_allocated : Int
  amount_debited : Int
  amount_refunded : Int
  amount_chargeback : Int
  status : String
  deriving DecidableEq, Repr

/-- The persisted payment-line table. -/
abbrev Store := List DocdataPayment

/-- The emitted signals, in emission order. -/
inductive Event where
  | payment_added (payment_id : Nat)
  | payment_updated (payment_id : Nat)
  | order_status_changed (old_status new_status : String)
  deriving DecidableEq, Repr

/-- External configuration: the `DOCDATA_PAYMENT_SUCCESS_MARGIN` per-currency
tolerance table of `appsettings` (looked up with default 0). -/
structure AppSettings where
  DOCDATA_PAYMENT_SUCCESS_MARGIN : List (String × Int)
  deriving DecidableEq, Repr

/-- `_to_decimal`: `D(int(amount.value)) / 100`, kept in minor units. -/
def to_decimal (amount : Amount) : Int :=
  amount.value

/-- `_get_payment_sum`: sum the `<capture>`, `<refund>` or `<chargeback>`
elements whose status equals the success status; others are only logged. -/
def get_payment_sum (payment : PaymentReport) (xml_tag : String)
    (success_status : String) : Int :=
  let tags : List SubLine :=
    if xml_tag = "capture" then payment.authorization.capture
    else if xml_tag = "refund" then payment.authorization.refund
    else if xml_tag = "chargeback" then payment.authorization.chargeback
    else []
  tags.foldl
    (fun amount tag =>
      if tag.status = success_status then amount + to_decimal tag.amount
      else amount)
    0

/-- The class-level `status_mapping` table of `Interface`. -/
def status_mapping : List (String × String) :=
  [(DocdataClient.STATUS_NEW, DocdataOrder.STATUS_NEW),
   (DocdataClient.STATUS_STARTED, DocdataOrder.STATUS_NEW),
   (DocdataClient.STATUS_REDIRECTED_FOR_AUTHENTICATION, DocdataOrder.STATUS_IN_PROGRESS),
   (DocdataClient.STATUS_AUTHORIZATION_REQUESTED, DocdataOrder.STATUS_PENDING),
   (DocdataClient.STATUS_AUTHORIZED, DocdataOrder.STATUS_PENDING),
   (DocdataClient.STATUS_PAID, DocdataOrder.STATUS_PENDING),
   (DocdataClient.STATUS_CANCELLED, DocdataOrder.STATUS_CANCELLED),
   (DocdataClient.STATUS_CHARGED_BACK, DocdataOrder.STATUS_CHARGED_BACK),
   (DocdataClient.STATUS_CONFIRMED_PAID, DocdataOrder.STATUS_PAID),
   (DocdataClient.STATUS_CONFIRMED_CHARGEDBACK, DocdataOrder.STATUS_CHARGED_BACK),
   (DocdataClient.STATUS_CLOSED_SUCCESS, DocdataOrder.STATUS_PAID),
   (DocdataClient.STATUS_CLOSED_CANCELLED, DocdataOrder.STATUS_CANCELLED)]

/-- The margin computation block at the top of `_process_authorized_payment`
(currency-conversion tolerance, clamped to 0 when it reaches
`totalRegistered`). -/
def success_margin (cfg : AppSettings) (order : DocdataOrder) (report : Report) : Int :=
  let totals := report.approximateTotals
  if order.currency = totals.exchangedTo then
    if (report.payment.getD []).any
        (fun p => p.authorization.amount.currency != order.currency) then
      let margin := (cfg.DOCDATA_PAYMENT_SUCCESS_MARGIN.lookup totals.exchangedTo).getD 0
      if margin ≥ totals.totalRegistered then 0 else margin
    else 0
  else 0

/-- The `payment_sum == 0` block of `_process_authorized_payment`: a
tentative `CHARGED_BACK` when captured equals charged back, overwritten by
`REFUNDED` when captured equals refunded; `none` when neither equality
holds. -/
def zero_payment_sum_status (totalCaptured totalChargedback totalRefunded : Int) :
    Option String :=
  let new_status :=
    if totalCaptured = totalChargedback then some DocdataOrder.STATUS_CHARGED_BACK
    else none
  if totalCaptured = totalRefunded then some DocdataOrder.STATUS_REFUNDED
  else new_status

/-- `_process_authorized_payment`: the paid/refund/chargeback sub-decision
for one AUTHORIZED payment line.  The `payment` argument is used only for
logging in the source. -/
def process_authorized_payment (cfg : AppSettings) (order : DocdataOrder)
    (report : Report) (payment : PaymentReport) : Option String :=
  let totals := report.approximateTotals
  let margin := success_margin cfg order report
  if totals.totalCaptured < totals.totalRegistered - margin then
    none
  else
    let payment_sum := totals.totalCaptured - totals.totalChargedback - totals.totalRefunded
    if payment_sum ≥ totals.totalRegistered - margin then
      some DocdataOrder.STATUS_PAID
    else if payment_sum = 0 then
      zero_payment_sum_status totals.totalCaptured totals.totalChargedback totals.totalRefunded
    else if payment_sum > 0 then
      some DocdataOrder.STATUS_PAID_REFUNDED
    else
      some DocdataOrder.STATUS_UNKNOWN

/-- `save()` on a payment row: replace the row with the same `payment_id`,
or append a fresh one (the spec's abstract lock-and-upsert store). -/
def upsert : Store → DocdataPayment → Store
  | [], row => [row]
  | r :: rs, row =>
      if r.payment_id == row.payment_id then row :: rs else r :: upsert rs row

/-- The row content that one loop iteration of `_store_report_lines` writes
for the report entry `payment`: every field except the foreign key is
recomputed from the entry. -/
def line_row (payment : PaymentReport) (fk : String) : DocdataPayment :=
  { docdata_order := fk
    payment_id := payment.id
    payment_method := payment.paymentMethod
    confidence_level := payment.authorization.confidenceLevel
    amount_allocated :=
      if payment.authorization.status = "AUTHORIZED" then
        to_decimal payment.authorization.amount
      else 0
    amount_debited := get_payment_sum payment "capture" "CAPTURED"
    amount_refunded := get_payment_sum payment "refund" "CAPTURED"
    amount_chargeback := get_payment_sum payment "chargeback" "CHARGED"
    status := payment.authorization.status }

/-- The candidate status one line contributes: the sub-decision when the
authorization status is `AUTHORIZED`, nothing otherwise. -/
def line_candidate (cfg : AppSettings) (order : DocdataOrder) (report : Report)
    (payment : PaymentReport) : Option String :=
  if payment.authorization.status = "AUTHORIZED" then
    process_authorized_payment cfg order report payment
  else none

/-- The find-or-create and change-tracking part of one loop iteration of
`_store_report_lines`: starting from the looked-up row (or a fresh one),
overwrite the payment method when it changed, recompute the confidence
level and the four amount fields, track the authorization-status change,
and report the resulting row together with the `updated` flag. -/
def line_flags_row (order : DocdataOrder) (payment : PaymentReport)
    (found : Option DocdataPayment) : DocdataPayment × Bool :=
  let authorization := payment.authorization
  let auth_status := authorization.status
  let amount_allocated :=
    if auth_status = "AUTHORIZED" then to_decimal authorization.amount else 0
  let ddpayment : DocdataPayment :=
    match found with
    | some row => row
    | none =>
        -- fresh row; the amount and status defaults only feed the
        -- `updated` flag, which `added` already subsumes
        { docdata_order := order.order_key
          payment_id := payment.id
          payment_method := payment.paymentMethod
          confidence_level := ""
          amount_allocated := 0
          amount_debited := 0
          amount_refunded := 0
          amount_chargeback := 0
          status := "" }
  let step1 : DocdataPayment × Bool :=
    if payment.paymentMethod ≠ ddpayment.payment_method then
      ({ ddpayment with payment_method := payment.paymentMethod }, true)
    else (ddpayment, false)
  let old_values := (step1.1.confidence_level, step1.1.amount_allocated,
    step1.1.amount_chargeback, step1.1.amount_refunded, step1.1.amount_debited)
  let ddpayment2 :=
    { step1.1 with
        confidence_level := authorization.confidenceLevel
        amount_allocated := amount_allocated
        amount_debited := get_payment_sum payment "capture" "CAPTURED"
        amount_refunded := get_payment_sum payment "refund" "CAPTURED"
        amount_chargeback := get_payment_sum payment "chargeback" "CHARGED" }
  let new_values := (ddpayment2.confidence_level, ddpayment2.amount_allocated,
    ddpayment2.amount_chargeback, ddpayment2.amount_refunded, ddpayment2.amount_debited)
  let updated := if old_values ≠ new_values then true else step1.2
  if ddpayment2.status ≠ auth_status then
    ({ ddpayment2 with status := auth_status }, true)
  else (ddpayment2, updated)

/-- One iteration of the `for payment in report_payments` loop of
`_store_report_lines`: evaluate the AUTHORIZED sub-decision, find or create
the row, recompute its fields and flags via `line_flags_row`, persist when
something changed, and emit `payment_added` or `payment_updated`.  Returns
the new store, the emitted events and the candidate status from this line.
When the insert loses the create/create race (`IntegrityError`), the
savepoint is rolled back and the handler's own warning call
`"... payment id {0}: {1}".format(payment.id)` (interface.py line 422)
raises `IndexError` — one argument for two replacement fields — before the
retry save, the `added = False` reclassification and any signal, so the
iteration aborts the pass: `none`. -/
def store_report_line (cfg : AppSettings) (order : DocdataOrder) (report : Report)
    (race : Nat → Bool) (store : Store) (payment : PaymentReport) :
    Option (Store × List Event × Option String) :=
  let maybe_new_status := line_candidate cfg order report payment
  let found := store.find? fun r => r.payment_id == payment.id
  let added := found.isNone
  let flagged := line_flags_row order payment found
  let ddpayment := flagged.1
  let updated := flagged.2
  if added || updated then
    if added && race payment.id then
      -- IntegrityError: savepoint rollback, then the broken warning format
      -- raises IndexError and escapes every enclosing frame
      none
    else
      some (upsert store ddpayment,
        [if added then Event.payment_added payment.id else Event.payment_updated payment.id],
        maybe_new_status)
  else
    some (store, [], maybe_new_status)

/-- The `for payment in report_payments` loop: thread the store and the
candidate status (each non-null sub-decision overwrites the previous one)
and collect the events in order; an aborting iteration aborts the whole
loop. -/
def store_report_lines_loop (cfg : AppSettings) (order : DocdataOrder)
    (report : Report) (race : Nat → Bool) :
    List PaymentReport → Store → Option String →
    Option (Option String × Store × List Event)
  | [], store, new_status => some (new_status, store, [])
  | payment :: rest, store, new_status =>
      match store_report_line cfg order report race store payment with
      | none => none
      | some step =>
          match store_report_lines_loop cfg order report race rest step.1
              (match step.2.2 with
               | some s => some s
               | none => new_status) with
          | none => none
          | some next => some (next.1, next.2.1, step.2.1 ++ next.2.2)

/-- The status-mapping fallback of `_store_report_lines`: map the last
line's authorization status through `status_mapping` (default `UNKNOWN`)
and stay in cancelled/expired instead of switching back to
new/in-progress. -/
def fallback_status (order : DocdataOrder) (auth_status : String) : String :=
  let mapped :=
    (status_mapping.lookup auth_status).getD DocdataOrder.STATUS_UNKNOWN
  if (order.status = DocdataOrder.STATUS_EXPIRED ∨
      order.status = DocdataOrder.STATUS_CANCELLED) ∧
     (mapped = DocdataOrder.STATUS_NEW ∨
      mapped = DocdataOrder.STATUS_IN_PROGRESS) then
    order.status
  else mapped

/-- `_store_report_lines`: sort the entries by numeric id ascending (the
Python `list.sort(key=...)` is stable; so is `List.insertionSort`), run the
loop, and when no line yielded a status fall back to the static mapping of
the last line's authorization status.  `none` models an escaping exception:
the `IndexError` on `report_payments[-1]` when the payment list is empty,
or the `IndexError` from the broken warning format when an iteration loses
the create/create race.  The final re-sorting of `ddpayment_objects`
(already in ascending-id order) only affects the discarded return value and
is omitted. -/
def store_report_lines (cfg : AppSettings) (order : DocdataOrder) (report : Report)
    (race : Nat → Bool) (store : Store) : Option (String × Store × List Event) :=
  let report_payments :=
    List.insertionSort (fun a b : PaymentReport => a.id ≤ b.id) (report.payment.getD [])
  match store_report_lines_loop cfg order report race report_payments store none with
  | none => none
  | some looped =>
    match looped.1 with
    | some s => some (s, looped.2.1, looped.2.2)
    | none =>
      match report_payments.getLast? with
      | none => none
      | some last =>
        some (fallback_status order last.authorization.status, looped.2.1, looped.2.2)

/-- `_set_status`: coerce an unrecognized status to `UNKNOWN`, store it, and
report whether anything changed. -/
def set_status (order : DocdataOrder) (new_status : String) : DocdataOrder × Bool :=
  if order.status ≠ new_status then
    let coerced :=
      if new_status ∈ DocdataOrder.STATUS_CHOICES then new_status
      else DocdataOrder.STATUS_UNKNOWN
    ({ order with status := coerced }, true)
  else (order, false)

/-- Python's `indented_status or default`: `None` and the empty string are
falsy. -/
def py_or (indented_status : Option String) (default : String) : String :=
  match indented_status with
  | some s => if s = "" then default else s
  | none => default

/-- The no-payment heuristics branch of `_store_report`: when every pending,
captured, refunded and charged-back total is zero the order stayed
cancelled, expired after 21 days, or is still new (the requested intended
status taking precedence); on non-zero totals with no payment lines the
source logs an error and keeps cancelled/expired, falling back to new (or
the intended status) otherwise. -/
def no_payment_status (now : Int) (order : DocdataOrder)
    (totals : ApproximateTotals) (indented_status : Option String) : String :=
  if totals.totalShopperPending = 0 ∧ totals.totalAcquirerPending = 0 ∧
     totals.totalAcquirerApproved = 0 ∧ totals.totalCaptured = 0 ∧
     totals.totalRefunded = 0 ∧ totals.totalChargedback = 0 then
    if order.status = DocdataOrder.STATUS_CANCELLED then
      order.status
    else if order.created < now - 21 * 86400 then
      py_or indented_status DocdataOrder.STATUS_EXPIRED
    else
      py_or indented_status DocdataOrder.STATUS_NEW
  else
    if order.status = DocdataOrder.STATUS_EXPIRED ∨
       order.status = DocdataOrder.STATUS_CANCELLED then
      order.status
    else
      py_or indented_status DocdataOrder.STATUS_NEW

/-- The tail of `_store_report`: pass the computed status through
`_set_status`, save the order, and fire `order_status_changed` on a real
change (the signal helper additionally returns early when old and new
coincide after coercion, so the event needs both flags). -/
def finish_report (order : DocdataOrder)
    (lines_result : Option (String × Store × List Event)) :
    Option (DocdataOrder × Store × List Event) :=
  match lines_result with
  | none => none
  | some (new_status, store', line_events) =>
    let old_status := order.status
    let assigned := set_status order new_status
    let order' := assigned.1
    let status_changed := assigned.2
    let events :=
      line_events ++
        (if status_changed && (old_status != order'.status) then
          [Event.order_status_changed old_status order'.status]
        else [])
    some (order', store', events)

/-- The totals-snapshot overwrite at the top of `_store_report`: every
total field is replaced wholesale from the report. -/
def report_order (order : DocdataOrder) (report : Report) : DocdataOrder :=
  let totals := report.approximateTotals
  { order with
      total_registered := totals.totalRegistered
      total_shopper_pending := totals.totalShopperPending
      total_acquirer_pending := totals.totalAcquirerPending
      total_acquirer_approved := totals.totalAcquirerApproved
      total_captured := totals.totalCaptured
      total_refunded := totals.totalRefunded
      total_charged_back := totals.totalChargedback }

/-- `_store_report`, one reconciliation pass: overwrite the totals snapshot,
branch on the presence of payment entries (lines loop vs the
approximate-totals heuristics), then assign the status and emit events.
The registered-total consistency check of the source only logs and is
omitted.  `none` models an escaping exception: nothing is committed and no
status is assigned. -/
def store_report (cfg : AppSettings) (now : Int) (race : Nat → Bool) (store : Store)
    (order : DocdataOrder) (report : Report) (indented_status : Option String) :
    Option (DocdataOrder × Store × List Event) :=
  let order := report_order order report
  let lines_result : Option (String × Store × List Event) :=
    match report.payment with
    | some _ => store_report_lines cfg order report race store
    | none =>
        some (no_payment_status now order report.approximateTotals indented_status,
          store, [])
  finish_report order lines_result

/-- Projection: the final order status of a pass, when the pass did not
abort. -/
def pass_status (result : Option (DocdataOrder × Store × List Event)) : Option String :=
  result.map fun r => r.1.status

/-- The status string `_set_status` leaves on the order: unchanged when the
new status equals the current one, else the new status coerced into the
recognized set. -/
def assign_result (order : DocdataOrder) (new_status : String) : String :=
  if order.status = new_status then order.status
  else if new_status ∈ DocdataOrder.STATUS_CHOICES then new_status
  else DocdataOrder.STATUS_UNKNOWN

/-- The candidate-status component of the report-lines loop in isolation:
each non-null AUTHORIZED sub-decision overwrites the accumulator. -/
def cand_fold (cfg : AppSettings) (order : DocdataOrder) (report : Report) :
    List PaymentReport → Option String → Option String
  | [], acc => acc
  | payment :: rest, acc =>
      cand_fold cfg order report rest
        (match line_candidate cfg order report payment with
         | some s => some s
         | none => acc)

/-!  Concrete fixtures used by the witness theorems. -/

/-- A margin table granting EUR a 50-cent tolerance. -/
def cfgW : AppSettings := ⟨[("EUR", 50)]⟩

/-- A fully captured EUR authorization. -/
def authW : Authorization :=
  ⟨"AUTHORIZED", ⟨1000, "EUR"⟩, "ACQUIRER_APPROVED",
   [⟨"CAPTURED", ⟨1000, "EUR"⟩⟩], [], []⟩

/-- A fully captured payment entry. -/
def payW : PaymentReport := ⟨1, "VISA", authW⟩

/-- A second, unauthorized payment entry with a higher id. -/
def payW2 : PaymentReport := ⟨2, "MASTERCARD", ⟨"NEW", ⟨500, "EUR"⟩, "", [], [], []⟩⟩

/-- Totals: 1000 registered, 1000 captured. -/
def totalsW : ApproximateTotals := ⟨1000, 0, 0, 0, 1000, 0, 0, "EUR"⟩

/-- All-zero totals (1000 registered). -/
def totalsZ : ApproximateTotals := ⟨1000, 0, 0, 0, 0, 0, 0, "EUR"⟩

/-- A report with one fully captured line. -/
def reportW : Report := ⟨totalsW, some [payW]⟩

/-- A cross-currency report: the authorization is in USD. -/
def reportUSD : Report :=
  ⟨totalsW, some [⟨1, "AMEX", ⟨"AUTHORIZED", ⟨1000, "USD"⟩, "ACQUIRER_APPROVED", [], [], []⟩⟩]⟩

/-- A report with no payment entries and all-zero totals. -/
def reportZ : Report := ⟨totalsZ, none⟩

/-- A pending EUR order created at time 0. -/
def orderW : DocdataOrder := ⟨"order-1", "EUR", 1000, "pending", 0, 0, 0, 0, 0, 0, 0, 0⟩

/-- An expired order created at time 0. -/
def orderExp : DocdataOrder := ⟨"order-2", "EUR", 1000, "expired", 0, 0, 0, 0, 0, 0, 0, 0⟩

/-- The race oracle that never sees a concurrent insert. -/
def raceF : Nat → Bool := fun _ => false

/-- The race oracle that always sees a concurrent insert. -/
def raceT : Nat → Bool := fun _ => true

/-!  Helper lemmas. -/

/-- The margin is zero or strictly below the registered total: the clamp in
`_process_authorized_payment` zeroes any margin reaching
`totalRegistered`. -/
lemma success_margin_cases (cfg : AppSettings) (order : DocdataOrder) (report : Report) :
    success_margin cfg order report = 0 ∨
    success_margin cfg order report < report.approximateTotals.totalRegistered := by
  simp only [success_margin]
  split_ifs with h1 h2 h3
  · exact Or.inl rfl
  · exact Or.inr (lt_of_not_ge h3)
  · exact Or.inl rfl
  · exact Or.inl rfl

/-- Outside the cross-currency condition the margin is zero. -/
lemma success_margin_of_not (cfg : AppSettings) (order : DocdataOrder) (report : Report)
    (h : ¬ (order.currency = report.approximateTotals.exchangedTo ∧
        (report.payment.getD []).any
          (fun p => p.authorization.amount.currency != order.currency) = true)) :
    success_margin cfg order report = 0 := by
  simp only [success_margin]
  split_ifs with h1 h2 h3
  · rfl
  · exact absurd ⟨h1, h2⟩ h
  · rfl
  · rfl

/-- Under the cross-currency condition the margin is the configured
tolerance, clamped to zero when it reaches the registered total. -/
lemma success_margin_of_cond (cfg : AppSettings) (order : DocdataOrder) (report : Report)
    (h1 : order.currency = report.approximateTotals.exchangedTo)
    (h2 : (report.payment.getD []).any
        (fun p => p.authorization.amount.currency != order.currency) = true) :
    success_margin cfg order report =
      if (cfg.DOCDATA_PAYMENT_SUCCESS_MARGIN.lookup
            report.approximateTotals.exchangedTo).getD 0 ≥
          report.approximateTotals.totalRegistered then 0
      else (cfg.DOCDATA_PAYMENT_SUCCESS_MARGIN.lookup
            report.approximateTotals.exchangedTo).getD 0 := by
  simp only [success_margin]
  rw [if_pos h1, if_pos h2]

/-- `_set_status` as a single conditional. -/
lemma set_status_eq (order : DocdataOrder) (n : String) :
    set_status order n =
      if order.status = n then (order, false)
      else ({ order with status := if n ∈ DocdataOrder.STATUS_CHOICES then n
                                   else DocdataOrder.STATUS_UNKNOWN }, true) := by
  unfold set_status
  by_cases h : order.status = n
  · simp [h]
  · simp [h]

/-- The first component of `_set_status` only rewrites the status field. -/
lemma set_status_fst (order : DocdataOrder) (n : String) :
    (set_status order n).1 = { order with status := assign_result order n } := by
  rw [set_status_eq]
  unfold assign_result
  by_cases h : order.status = n
  · rw [if_pos h, if_pos h]
  · rw [if_neg h, if_neg h]

/-- `_set_status` keeps the order inside the recognized status set. -/
lemma set_status_mem (order : DocdataOrder) (n : String)
    (h : order.status ∈ DocdataOrder.STATUS_CHOICES) :
    (set_status order n).1.status ∈ DocdataOrder.STATUS_CHOICES := by
  rw [set_status_fst]
  unfold assign_result
  split_ifs with h1 h2
  · exact h
  · exact h2
  · show DocdataOrder.STATUS_UNKNOWN ∈ DocdataOrder.STATUS_CHOICES
    decide

/-- Assigning the current status is a no-op. -/
lemma set_status_self (order : DocdataOrder) :
    set_status order order.status = (order, false) := by
  rw [set_status_eq, if_pos rfl]

/-- A freshly created row carries exactly the recomputed content, with the
current order as owner. -/
lemma line_flags_row_none (order : DocdataOrder) (payment : PaymentReport) :
    (line_flags_row order payment none).1 = line_row payment order.order_key := by
  simp only [line_flags_row, line_row]
  by_cases hs : ("" : String) = payment.authorization.status
  · simp [← hs]
  · simp [hs]

/-- An existing row is rewritten to exactly the recomputed content (keeping
its owner), and the `updated` flag fires precisely when that changes it. -/
lemma line_flags_row_some (order : DocdataOrder) (payment : PaymentReport)
    (row : DocdataPayment) (hid : row.payment_id = payment.id) :
    line_flags_row order payment (some row) =
      (line_row payment row.docdata_order,
       if row = line_row payment row.docdata_order then false else true) := by
  obtain ⟨fk, pid, pm, cl, aa, ad, ar, ac, st⟩ := row
  simp only at hid
  subst hid
  by_cases hA : payment.authorization.status = "AUTHORIZED"
  · simp only [line_flags_row, line_row, hA, if_pos]
    split_ifs <;> simp_all [DocdataPayment.mk.injEq, Prod.mk.injEq] <;> tauto
  · simp only [line_flags_row, line_row, if_neg hA]
    split_ifs <;> simp_all [DocdataPayment.mk.injEq, Prod.mk.injEq] <;> tauto

set_option maxRecDepth 8192 in
/-- The characterization of one loop iteration: the row written for a
report entry is `line_row`, an existing identical row is left alone with
a `payment_updated` event on a real update, and an insert that loses the
create/create race aborts the pass (the broken warning format raises
`IndexError` inside the `IntegrityError` handler). -/
lemma store_report_line_eq (cfg : AppSettings) (order : DocdataOrder) (report : Report)
    (race : Nat → Bool) (store : Store) (payment : PaymentReport) :
    store_report_line cfg order report race store payment =
      match store.find? (fun r => r.payment_id == payment.id) with
      | some row =>
          if row = line_row payment row.docdata_order then
            some (store, [], line_candidate cfg order report payment)
          else
            some (upsert store (line_row payment row.docdata_order),
              [Event.payment_updated payment.id],
              line_candidate cfg order report payment)
      | none =>
          if race payment.id then none
          else
            some (upsert store (line_row payment order.order_key),
              [Event.payment_added payment.id],
              line_candidate cfg order report payment) := by
  rcases hfind : store.find? (fun r => r.payment_id == payment.id) with _ | row
  · simp only [store_report_line, hfind, Option.isNone_none, Bool.true_or, Bool.true_and,
      line_flags_row_none]
    cases race payment.id <;> simp
  · have hid : row.payment_id = payment.id := by
      have := List.find?_some hfind
      simpa using this
    simp only [store_report_line, hfind, Option.isNone_some, Bool.false_or, Bool.false_and,
      line_flags_row_some order payment row hid]
    by_cases hrow : row = line_row payment row.docdata_order
    · simp only [if_pos hrow]
      simp
    · simp only [if_neg hrow]
      simp

/-- After an upsert, looking the row's id up finds exactly that row. -/
lemma find?_upsert_self (store : Store) (row : DocdataPayment) :
    (upsert store row).find? (fun r => r.payment_id == row.payment_id) = some row := by
  induction store with
  | nil => simp [upsert, List.find?]
  | cons r rs ih =>
      cases h : (r.payment_id == row.payment_id) <;> simp [upsert, h, List.find?, ih]

/-- An upsert leaves lookups of every other id unchanged. -/
lemma find?_upsert_ne (store : Store) (row : DocdataPayment) (q : Nat)
    (hq : q ≠ row.payment_id) :
    (upsert store row).find? (fun r => r.payment_id == q) =
      store.find? (fun r => r.payment_id == q) := by
  have hb : (row.payment_id == q) = false := by
    simp only [beq_eq_false_iff_ne, ne_eq]
    exact fun hh => hq hh.symm
  induction store with
  | nil => simp [upsert, List.find?, hb]
  | cons r rs ih =>
      cases h : (r.payment_id == row.payment_id)
      · cases h2 : (r.payment_id == q) <;> simp [upsert, h, List.find?, h2, ih]
      · have hr : r.payment_id = row.payment_id := by simpa using h
        have h2 : (r.payment_id == q) = false := by rw [hr]; exact hb
        simp [upsert, h, List.find?, h2, hb]

/-- The candidate component of a non-aborting loop iteration is the line
candidate. -/
lemma store_report_line_cand (cfg : AppSettings) (order : DocdataOrder) (report : Report)
    (race : Nat → Bool) (store : Store) (payment : PaymentReport)
    (res : Store × List Event × Option String)
    (h : store_report_line cfg order report race store payment = some res) :
    res.2.2 = line_candidate cfg order report payment := by
  rw [store_report_line_eq] at h
  rcases hfind : store.find? (fun r => r.payment_id == payment.id) with _ | row <;>
    simp only [hfind] at h
  · cases hr : race payment.id <;> rw [hr] at h
    · rw [if_neg Bool.false_ne_true] at h
      injection h with h
      subst h
      rfl
    · rw [if_pos rfl] at h
      exact Option.noConfusion h
  · by_cases hrow : row = line_row payment row.docdata_order
    · rw [if_pos hrow] at h
      injection h with h
      subst h
      rfl
    · rw [if_neg hrow] at h
      injection h with h
      subst h
      rfl

/-- A non-aborting loop iteration emits only payment events. -/
lemma store_report_line_events (cfg : AppSettings) (order : DocdataOrder) (report : Report)
    (race : Nat → Bool) (store : Store) (payment : PaymentReport)
    (res : Store × List Event × Option String)
    (h : store_report_line cfg order report race store payment = some res) :
    ∀ e ∈ res.2.1, ∀ a b, e ≠ Event.order_status_changed a b := by
  rw [store_report_line_eq] at h
  rcases hfind : store.find? (fun r => r.payment_id == payment.id) with _ | row <;>
    simp only [hfind] at h
  · cases hr : race payment.id <;> rw [hr] at h
    · rw [if_neg Bool.false_ne_true] at h
      injection h with h
      subst h
      simp
    · rw [if_pos rfl] at h
      exact Option.noConfusion h
  · by_cases hrow : row = line_row payment row.docdata_order
    · rw [if_pos hrow] at h
      injection h with h
      subst h
      simp
    · rw [if_neg hrow] at h
      injection h with h
      subst h
      simp

/-- The candidate component of a non-aborting loop is `cand_fold`,
independently of the store and the race oracle. -/
lemma store_report_lines_loop_cand (cfg : AppSettings) (order : DocdataOrder)
    (report : Report) (race : Nat → Bool) :
    ∀ (ps : List PaymentReport) (store : Store) (acc : Option String)
      (res : Option String × Store × List Event),
      store_report_lines_loop cfg order report race ps store acc = some res →
      res.1 = cand_fold cfg order report ps acc := by
  intro ps
  induction ps with
  | nil =>
      intro store acc res h
      injection h with h
      subst h
      rfl
  | cons p rest ih =>
      intro store acc res h
      simp only [store_report_lines_loop] at h
      split at h
      · exact Option.noConfusion h
      · rename_i step hstep
        split at h
        · exact Option.noConfusion h
        · rename_i next hnext
          injection h with h
          subst h
          rw [store_report_line_cand cfg order report race store p step hstep] at hnext
          show next.1 = _
          simp only [cand_fold]
          exact ih _ _ _ hnext

/-- A non-aborting loop emits only payment events. -/
lemma store_report_lines_loop_events (cfg : AppSettings) (order : DocdataOrder)
    (report : Report) (race : Nat → Bool) :
    ∀ (ps : List PaymentReport) (store : Store) (acc : Option String)
      (res : Option String × Store × List Event),
      store_report_lines_loop cfg order report race ps store acc = some res →
      ∀ e ∈ res.2.2, ∀ a b, e ≠ Event.order_status_changed a b := by
  intro ps
  induction ps with
  | nil =>
      intro store acc res h e he
      injection h with h
      subst h
      simp at he
  | cons p rest ih =>
      intro store acc res h e he
      simp only [store_report_lines_loop] at h
      split at h
      · exact Option.noConfusion h
      · rename_i step hstep
        split at h
        · exact Option.noConfusion h
        · rename_i next hnext
          injection h with h
          subst h
          simp only [List.mem_append] at he
          rcases he with he | he
          · exact store_report_line_events cfg order report race store p step hstep e he
          · exact ih _ _ _ hnext e he

/-- A non-null result of `cand_fold` is some line's candidate, unless it is
the accumulator. -/
lemma cand_fold_some (cfg : AppSettings) (order : DocdataOrder) (report : Report) :
    ∀ (ps : List PaymentReport) (acc : Option String) (s : String),
      cand_fold cfg order report ps acc = some s →
      (∃ p ∈ ps, line_candidate cfg order report p = some s) ∨ acc = some s := by
  intro ps
  induction ps with
  | nil => intro acc s h; exact Or.inr h
  | cons p rest ih =>
      intro acc s h
      simp only [cand_fold] at h
      rcases ih _ s h with hp | hacc
      · obtain ⟨q, hq, hcand⟩ := hp
        exact Or.inl ⟨q, List.mem_cons_of_mem p hq, hcand⟩
      · rcases hc : line_candidate cfg order report p with _ | t
        · rw [hc] at hacc
          exact Or.inr hacc
        · rw [hc] at hacc
          injection hacc with hst
          exact Or.inl ⟨p, List.mem_cons_self p rest, by rw [hc, hst]⟩

/-- `finish_report` on a successful lines result, unfolded. -/
lemma finish_report_some (order : DocdataOrder) (ν : String) (st : Store)
    (lev : List Event) :
    finish_report order (some (ν, st, lev)) =
      some ((set_status order ν).1, st,
        lev ++
          (if (set_status order ν).2 && (order.status != (set_status order ν).1.status) then
            [Event.order_status_changed order.status (set_status order ν).1.status]
          else [])) := rfl

/-- A successful lines pass derives its status from a line's candidate or
from the fallback mapping. -/
lemma store_report_lines_inv (cfg : AppSettings) (X : DocdataOrder) (report : Report)
    (race : Nat → Bool) (store : Store) (ν : String) (st : Store) (ev : List Event)
    (h : store_report_lines cfg X report race store = some (ν, st, ev)) :
    (∃ p, line_candidate cfg X report p = some ν) ∨
    (∃ s, ν = fallback_status X s) := by
  simp only [store_report_lines] at h
  split at h
  · exact Option.noConfusion h
  · rename_i looped hloop
    have hc1 := store_report_lines_loop_cand cfg X report race _ store none looped hloop
    split at h
    · rename_i s hl
      injection h with h
      injection h with h1 _
      have hl' : cand_fold cfg X report
          (List.insertionSort (fun a b : PaymentReport => a.id ≤ b.id)
            (report.payment.getD [])) none = some s := hc1.symm.trans hl
      rcases cand_fold_some cfg X report _ none s hl' with ⟨p, _, hc⟩ | hacc
      · exact Or.inl ⟨p, by rw [hc, h1]⟩
      · cases hacc
    · split at h
      · exact Option.noConfusion h
      · rename_i last _
        injection h with h
        injection h with h1 _
        exact Or.inr ⟨last.authorization.status, h1.symm⟩

/-- A successful lines pass emits only payment events. -/
lemma store_report_lines_events_only (cfg : AppSettings) (X : DocdataOrder)
    (report : Report) (race : Nat → Bool) (store : Store) (ν : String) (st : Store)
    (ev : List Event)
    (h : store_report_lines cfg X report race store = some (ν, st, ev)) :
    ∀ e ∈ ev, ∀ a b, e ≠ Event.order_status_changed a b := by
  simp only [store_report_lines] at h
  split at h
  · exact Option.noConfusion h
  · rename_i looped hloop
    split at h
    · injection h with h
      injection h with _ h
      injection h with _ h
      intro e he
      rw [← h] at he
      exact store_report_lines_loop_events cfg X report race _ store none looped hloop e he
    · split at h
      · exact Option.noConfusion h
      · injection h with h
        injection h with _ h
        injection h with _ h
        intro e he
        rw [← h] at he
        exact store_report_lines_loop_events cfg X report race _ store none looped hloop e he

/-- Inversion of one full pass: a successful pass always runs the status
through `_set_status` on the totals-overwritten order, the emitted events
are the payment events of the lines loop followed by the status event, and
the computed status comes from the no-payment heuristics, a line candidate,
or the fallback mapping. -/
lemma store_report_inv (cfg : AppSettings) (now : Int) (race : Nat → Bool)
    (store : Store) (order : DocdataOrder) (report : Report)
    (intended : Option String) (o' : DocdataOrder) (st' : Store) (ev : List Event)
    (h : store_report cfg now race store order report intended = some (o', st', ev)) :
    ∃ ν lev,
      o' = (set_status (report_order order report) ν).1 ∧
      ev = lev ++
        (if (set_status (report_order order report) ν).2 &&
            (order.status != (set_status (report_order order report) ν).1.status) then
          [Event.order_status_changed order.status
            (set_status (report_order order report) ν).1.status]
        else []) ∧
      (∀ e ∈ lev, ∀ a b, e ≠ Event.order_status_changed a b) ∧
      ((report.payment = none ∧
        ν = no_payment_status now (report_order order report)
              report.approximateTotals intended ∧
        st' = store ∧ lev = []) ∨
       ((∃ l, report.payment = some l) ∧
        ((∃ p, line_candidate cfg (report_order order report) report p = some ν) ∨
         (∃ s, ν = fallback_status (report_order order report) s)))) := by
  rcases hp : report.payment with _ | l
  · simp only [store_report, hp, finish_report_some, Option.some.injEq, Prod.mk.injEq] at h
    obtain ⟨h1, h2, h3⟩ := h
    exact ⟨_, [], h1.symm, h3.symm, by simp, Or.inl ⟨rfl, rfl, h2.symm, rfl⟩⟩
  · simp only [store_report, hp] at h
    rcases hlr : store_report_lines cfg (report_order order report) report race store
      with _ | ⟨ν, st2, lev⟩
    · rw [hlr] at h
      cases h
    · rw [hlr, finish_report_some] at h
      simp only [Option.some.injEq, Prod.mk.injEq] at h
      obtain ⟨h1, h2, h3⟩ := h
      exact ⟨ν, lev, h1.symm, h3.symm,
        store_report_lines_events_only cfg _ report race store ν st2 lev hlr,
        Or.inr ⟨⟨l, rfl⟩,
          store_report_lines_inv cfg _ report race store ν st2 lev hlr⟩⟩

/-- The AUTHORIZED sub-decision only ever produces the five money statuses. -/
lemma process_authorized_payment_values (cfg : AppSettings) (o : DocdataOrder)
    (r : Report) (p : PaymentReport) (s : String)
    (h : process_authorized_payment cfg o r p = some s) :
    s = DocdataOrder.STATUS_PAID ∨ s = DocdataOrder.STATUS_CHARGED_BACK ∨
    s = DocdataOrder.STATUS_REFUNDED ∨ s = DocdataOrder.STATUS_PAID_REFUNDED ∨
    s = DocdataOrder.STATUS_UNKNOWN := by
  simp only [process_authorized_payment, zero_payment_sum_status] at h
  split_ifs at h
  all_goals first
    | exact Option.noConfusion h
    | (injection h with h; subst h; decide)

/-- A non-null line candidate is the AUTHORIZED sub-decision's result. -/
lemma line_candidate_some (cfg : AppSettings) (o : DocdataOrder) (r : Report)
    (p : PaymentReport) (s : String) (h : line_candidate cfg o r p = some s) :
    process_authorized_payment cfg o r p = some s := by
  simp only [line_candidate] at h
  split_ifs at h
  exact h

/-- The fallback mapping never regresses a cancelled or expired order to
new or in-progress. -/
lemma fallback_status_not_progress (X : DocdataOrder) (s : String)
    (hstat : X.status = DocdataOrder.STATUS_EXPIRED ∨
      X.status = DocdataOrder.STATUS_CANCELLED) :
    fallback_status X s ≠ DocdataOrder.STATUS_NEW ∧
    fallback_status X s ≠ DocdataOrder.STATUS_IN_PROGRESS := by
  simp only [fallback_status]
  split_ifs with hg
  · rcases hstat with h | h <;> rw [h] <;> exact ⟨by decide, by decide⟩
  · exact ⟨fun hc => hg ⟨hstat, Or.inl hc⟩, fun hc => hg ⟨hstat, Or.inr hc⟩⟩

/-- The final status of an assignment. -/
lemma set_status_fst_status (X : DocdataOrder) (n : String) :
    (set_status X n).1.status = assign_result X n := by
  rw [set_status_fst]

/-- `assign_result` keeps the old status, the new one, or coerces. -/
lemma assign_result_cases (X : DocdataOrder) (n : String) :
    assign_result X n = X.status ∨ assign_result X n = n ∨
    assign_result X n = DocdataOrder.STATUS_UNKNOWN := by
  unfold assign_result
  split_ifs <;> tauto

/-- A recognized status is assigned as-is. -/
lemma assign_result_of_mem (X : DocdataOrder) (n : String)
    (h : n ∈ DocdataOrder.STATUS_CHOICES) : assign_result X n = n := by
  unfold assign_result
  by_cases h1 : X.status = n
  · rw [if_pos h1]
    exact h1
  · rw [if_neg h1, if_pos h]

/-- `py_or` of a well-formed intended status stays recognized. -/
lemma py_or_mem (intended : Option String) (d : String)
    (hd : d ∈ DocdataOrder.STATUS_CHOICES)
    (hint : intended = none ∨ ∃ s, intended = some s ∧
      s ∈ DocdataOrder.STATUS_CHOICES ∧ s ≠ "") :
    py_or intended d ∈ DocdataOrder.STATUS_CHOICES := by
  rcases hint with rfl | ⟨s, rfl, hs, hne⟩
  · exact hd
  · simpa [py_or, hne] using hs

/-- Assigning the current status keeps it. -/
lemma assign_result_self (X : DocdataOrder) : assign_result X X.status = X.status := by
  unfold assign_result
  rw [if_pos rfl]

/-- The observed final status of a finished pass is `assign_result`. -/
lemma pass_status_finish (X : DocdataOrder) (ν : String) (st : Store)
    (lev : List Event) :
    pass_status (finish_report X (some (ν, st, lev))) =
      some (assign_result X ν) := by
  rw [finish_report_some]
  simp [pass_status, set_status_fst_status]

/-!  Claim theorems. -/

/-- C1: in the AUTHORIZED sub-decision, with the pass's margin m and a
non-negative registered total: if Captured < Registered − m no status is
returned; otherwise, with paymentSum = Captured − Chargedback − Refunded,
paymentSum ≥ Registered − m yields PAID, paymentSum > 0 (below that bound)
yields PAID_REFUNDED, and paymentSum < 0 yields UNKNOWN rather than an
abort. -/
theorem c1_authorized_line_subdecision (cfg : AppSettings) (order : DocdataOrder)
    (report : Report) (payment : PaymentReport)
    (hreg : 0 ≤ report.approximateTotals.totalRegistered) :
    (report.approximateTotals.totalCaptured <
        report.approximateTotals.totalRegistered - success_margin cfg order report →
      process_authorized_payment cfg order report payment = none) ∧
    (¬ report.approximateTotals.totalCaptured <
        report.approximateTotals.totalRegistered - success_margin cfg order report →
      (report.approximateTotals.totalCaptured - report.approximateTotals.totalChargedback -
            report.approximateTotals.totalRefunded ≥
          report.approximateTotals.totalRegistered - success_margin cfg order report →
        process_authorized_payment cfg order report payment =
          some DocdataOrder.STATUS_PAID) ∧
      (report.approximateTotals.totalCaptured - report.approximateTotals.totalChargedback -
            report.approximateTotals.totalRefunded <
          report.approximateTotals.totalRegistered - success_margin cfg order report →
        0 < report.approximateTotals.totalCaptured - report.approximateTotals.totalChargedback -
            report.approximateTotals.totalRefunded →
        process_authorized_payment cfg order report payment =
          some DocdataOrder.STATUS_PAID_REFUNDED) ∧
      (report.approximateTotals.totalCaptured - report.approximateTotals.totalChargedback -
            report.approximateTotals.totalRefunded < 0 →
        process_authorized_payment cfg order report payment =
          some DocdataOrder.STATUS_UNKNOWN)) := by
  have hc := success_margin_cases cfg order report
  constructor
  · intro h
    simp only [process_authorized_payment]
    split_ifs <;> first | rfl | omega
  · intro hge
    refine ⟨?_, ?_, ?_⟩
    · intro hsum
      simp only [process_authorized_payment]
      split_ifs <;> first | rfl | omega
    · intro hlt hpos
      simp only [process_authorized_payment]
      split_ifs <;> first | rfl | omega
    · intro hneg
      rcases hc with hc | hc <;>
        (simp only [process_authorized_payment]
         split_ifs <;> first | rfl | omega)

/-- Witness for C1: the full-payment vector (Registered = Captured = 1000,
no refund or chargeback, margin 0) is decided PAID. -/
theorem c1_witness :
    process_authorized_payment cfgW orderW reportW payW = some DocdataOrder.STATUS_PAID := by
  have h := c1_authorized_line_subdecision cfgW orderW reportW payW (by decide)
  exact (h.2 (by decide)).1 (by decide)

/-- C6: the margin is non-zero only when the order currency equals the
totals' exchanged-to currency and some line's authorization-amount currency
differs from the order currency; it is then the configured per-currency
tolerance, clamped to zero when it would reach the registered total. -/
theorem c6_margin_characterization (cfg : AppSettings) (order : DocdataOrder)
    (report : Report) :
    (¬ (order.currency = report.approximateTotals.exchangedTo ∧
        (report.payment.getD []).any
          (fun p => p.authorization.amount.currency != order.currency) = true) →
      success_margin cfg order report = 0) ∧
    (order.currency = report.approximateTotals.exchangedTo →
      (report.payment.getD []).any
          (fun p => p.authorization.amount.currency != order.currency) = true →
      success_margin cfg order report =
        if (cfg.DOCDATA_PAYMENT_SUCCESS_MARGIN.lookup
              report.approximateTotals.exchangedTo).getD 0 ≥
            report.approximateTotals.totalRegistered then 0
        else (cfg.DOCDATA_PAYMENT_SUCCESS_MARGIN.lookup
              report.approximateTotals.exchangedTo).getD 0) ∧
    (success_margin cfg order report ≠ 0 →
      order.currency = report.approximateTotals.exchangedTo ∧
      (report.payment.getD []).any
          (fun p => p.authorization.amount.currency != order.currency) = true ∧
      success_margin cfg order report =
        (cfg.DOCDATA_PAYMENT_SUCCESS_MARGIN.lookup
          report.approximateTotals.exchangedTo).getD 0 ∧
      success_margin cfg order report < report.approximateTotals.totalRegistered) := by
  refine ⟨success_margin_of_not cfg order report,
          success_margin_of_cond cfg order report, ?_⟩
  intro hne
  by_cases h1 : order.currency = report.approximateTotals.exchangedTo
  · by_cases h2 : (report.payment.getD []).any
        (fun p => p.authorization.amount.currency != order.currency) = true
    · have heq := success_margin_of_cond cfg order report h1 h2
      by_cases h3 : (cfg.DOCDATA_PAYMENT_SUCCESS_MARGIN.lookup
            report.approximateTotals.exchangedTo).getD 0 ≥
          report.approximateTotals.totalRegistered
      · rw [if_pos h3] at heq
        exact absurd heq hne
      · rw [if_neg h3] at heq
        exact ⟨h1, h2, heq, heq ▸ lt_of_not_ge h3⟩
    · exact absurd (success_margin_of_not cfg order report fun hh => h2 hh.2) hne
  · exact absurd (success_margin_of_not cfg order report fun hh => h1 hh.1) hne

/-- Witness for C6: a cross-currency report with a configured EUR tolerance
of 50 below the registered total of 1000 produces margin 50. -/
theorem c6_witness : success_margin cfgW orderW reportUSD = 50 := by
  have h := (c6_margin_characterization cfgW orderW reportUSD).2.1 (by decide) (by decide)
  exact h.trans (by decide)

/-- C8: in the paymentSum = 0 block, the chargeback check runs first and the
refund check runs after it and overwrites it, so when both equalities hold
the resulting status is REFUNDED, not CHARGED_BACK. -/
theorem c8_refund_check_overwrites (cap cb refd : Int)
    (hsum : cap - cb - refd = 0) (hcb : cap = cb) (href : cap = refd) :
    zero_payment_sum_status cap cb refd = some DocdataOrder.STATUS_REFUNDED := by
  simp only [zero_payment_sum_status]
  rw [if_pos href]

/-- Witness for C8: all three totals zero. -/
theorem c8_witness : zero_payment_sum_status 0 0 0 = some DocdataOrder.STATUS_REFUNDED :=
  c8_refund_check_overwrites 0 0 0 (by decide) rfl rfl

/-- C3: refuted — the create/create race is NOT recovered.  When the
insert of a fresh payment line hits the uniqueness violation
(`IntegrityError`, the race oracle firing on an id absent from the store),
the handler rolls the savepoint back and then its own warning call
`"... payment id {0}: {1}".format(payment.id)` (interface.py line 422)
raises `IndexError` — one argument for two replacement fields — before the
retry save, the `added = False` reclassification and any signal: the whole
pass aborts with an uncaught error instead of emitting `payment_updated`. -/
theorem c3_race_aborts (cfg : AppSettings) (now : Int) (race : Nat → Bool)
    (store : Store) (order : DocdataOrder) (t : ApproximateTotals)
    (payment : PaymentReport) (intended : Option String)
    (hmiss : store.find? (fun r => r.payment_id == payment.id) = none)
    (hrace : race payment.id = true) :
    store_report cfg now race store order ⟨t, some [payment]⟩ intended = none := by
  have hline : store_report_line cfg (report_order order ⟨t, some [payment]⟩)
      ⟨t, some [payment]⟩ race store payment = none := by
    rw [store_report_line_eq]
    simp only [hmiss]
    rw [if_pos hrace]
  have hlines : store_report_lines cfg (report_order order ⟨t, some [payment]⟩)
      ⟨t, some [payment]⟩ race store = none := by
    simp only [store_report_lines, Option.getD_some, List.insertionSort,
      List.orderedInsert, store_report_lines_loop, hline]
  show finish_report (report_order order ⟨t, some [payment]⟩)
      (store_report_lines cfg (report_order order ⟨t, some [payment]⟩)
        ⟨t, some [payment]⟩ race store) = none
  rw [hlines]
  rfl

/-- Witness for C3's refutation: the race oracle fires on id 1 with an
empty store, and the pass over the one-line report aborts with no result at
all. -/
theorem c3_witness :
    store_report cfgW 100 raceT [] orderW ⟨totalsW, some [payW]⟩ none = none :=
  c3_race_aborts cfgW 100 raceT [] orderW totalsW payW none rfl rfl

/-- C9: an unrecognized computed status is coerced to UNKNOWN (not
rejected), so a pass starting from a recognized status always leaves the
order in a recognized status; and assigning the current status is a no-op
that emits no `order_status_changed` event. -/
theorem c9_status_coercion (cfg : AppSettings) (now : Int) (race : Nat → Bool)
    (store : Store) (order : DocdataOrder) (report : Report)
    (intended : Option String)
    (hrec : order.status ∈ DocdataOrder.STATUS_CHOICES) :
    (∀ o' st' ev,
      store_report cfg now race store order report intended = some (o', st', ev) →
      o'.status ∈ DocdataOrder.STATUS_CHOICES) ∧
    (∀ n, n ∉ DocdataOrder.STATUS_CHOICES → n ≠ order.status →
      set_status order n =
        ({ order with status := DocdataOrder.STATUS_UNKNOWN }, true)) ∧
    set_status order order.status = (order, false) ∧
    (∀ o' st' ev,
      store_report cfg now race store order report intended = some (o', st', ev) →
      o'.status = order.status →
      ∀ a b, Event.order_status_changed a b ∉ ev) := by
  refine ⟨?_, ?_, set_status_self order, ?_⟩
  · intro o' st' ev h
    obtain ⟨ν, lev, ho', _, _, _⟩ :=
      store_report_inv cfg now race store order report intended o' st' ev h
    rw [ho']
    exact set_status_mem _ ν hrec
  · intro n hn hne
    rw [set_status_eq, if_neg (fun hh => hne hh.symm), if_neg hn]
  · intro o' st' ev h heq a b hmem
    obtain ⟨ν, lev, ho', hev, hlev, _⟩ :=
      store_report_inv cfg now race store order report intended o' st' ev h
    rw [hev] at hmem
    rcases List.mem_append.mp hmem with hm | hm
    · exact hlev _ hm a b rfl
    · rcases hc : ((set_status (report_order order report) ν).2 &&
          (order.status != (set_status (report_order order report) ν).1.status))
        with _ | _
      · rw [hc] at hm
        simp at hm
      · rw [hc] at hm
        have hne := (Bool.and_eq_true _ _ |>.mp hc).2
        rw [bne_iff_ne] at hne
        rw [← ho'] at hne
        exact hne heq.symm

/-- Witness for C9: a pass over the no-payment report from a recognized
status ends in a recognized status, and self-assignment is a no-op. -/
theorem c9_witness :
    (pass_status (store_report cfgW 100 raceF [] orderW reportZ none) =
      some DocdataOrder.STATUS_NEW) ∧
    set_status orderW orderW.status = (orderW, false) := by
  have h := c9_status_coercion cfgW 100 raceF [] orderW reportZ none (by decide)
  exact ⟨by decide, h.2.2.1⟩

/-- C5: on a report with no payment entries and all six activity totals
zero, a cancelled order stays cancelled; otherwise an order older than 21
days becomes EXPIRED (or the explicitly requested intended status), and a
younger one NEW (or the intended status). -/
theorem c5_expiry_heuristic (cfg : AppSettings) (now : Int) (race : Nat → Bool)
    (store : Store) (order : DocdataOrder) (totals : ApproximateTotals)
    (intended : Option String)
    (hz : totals.totalShopperPending = 0 ∧ totals.totalAcquirerPending = 0 ∧
      totals.totalAcquirerApproved = 0 ∧ totals.totalCaptured = 0 ∧
      totals.totalRefunded = 0 ∧ totals.totalChargedback = 0)
    (hint : intended = none ∨ ∃ s, intended = some s ∧
      s ∈ DocdataOrder.STATUS_CHOICES ∧ s ≠ "") :
    pass_status (store_report cfg now race store order ⟨totals, none⟩ intended) =
      some (if order.status = DocdataOrder.STATUS_CANCELLED then
              DocdataOrder.STATUS_CANCELLED
            else if order.created < now - 21 * 86400 then
              py_or intended DocdataOrder.STATUS_EXPIRED
            else py_or intended DocdataOrder.STATUS_NEW) := by
  obtain ⟨z1, z2, z3, z4, z5, z6⟩ := hz
  have hred : store_report cfg now race store order ⟨totals, none⟩ intended =
      finish_report (report_order order ⟨totals, none⟩)
        (some (no_payment_status now (report_order order ⟨totals, none⟩)
          totals intended, store, [])) := rfl
  rw [hred, pass_status_finish]
  refine congrArg some ?_
  have hXs : (report_order order ⟨totals, none⟩).status = order.status := rfl
  have hXc : (report_order order ⟨totals, none⟩).created = order.created := rfl
  simp only [no_payment_status]
  rw [if_pos ⟨z1, z2, z3, z4, z5, z6⟩]
  by_cases hc : order.status = DocdataOrder.STATUS_CANCELLED
  · rw [if_pos (hXs.trans hc), if_pos hc, assign_result_self]
    exact hXs.trans hc
  · have hcX : ¬ (report_order order ⟨totals, none⟩).status =
        DocdataOrder.STATUS_CANCELLED := fun hh => hc (hXs.symm.trans hh)
    rw [if_neg hcX, if_neg hc]
    by_cases hold : order.created < now - 21 * 86400
    · rw [if_pos (show (report_order order ⟨totals, none⟩).created <
          now - 21 * 86400 from hXc ▸ hold), if_pos hold,
        assign_result_of_mem _ _ (py_or_mem intended _ (by decide) hint)]
    · rw [if_neg (show ¬ (report_order order ⟨totals, none⟩).created <
          now - 21 * 86400 from hXc ▸ hold), if_neg hold,
        assign_result_of_mem _ _ (py_or_mem intended _ (by decide) hint)]

/-- Witness for C5: a pending order created 22 days before now, with
all-zero totals and no payments, expires. -/
theorem c5_witness :
    pass_status (store_report cfgW (22 * 86400) raceF [] orderW reportZ none) =
      some DocdataOrder.STATUS_EXPIRED := by
  have h := c5_expiry_heuristic cfgW (22 * 86400) raceF [] orderW totalsZ none
    (by decide) (Or.inl rfl)
  exact h.trans (by decide)

/-- Counterexample to C4 as stated: an EXPIRED order younger than 21 days,
reconciled against a no-payment report with all-zero totals, is reset to
NEW — the pass does assign NEW from EXPIRED outside the explicit cancel
path. -/
theorem c4_counterexample :
    orderExp.status = DocdataOrder.STATUS_EXPIRED ∧
    pass_status (store_report cfgW 100 raceF [] orderExp reportZ none) =
      some DocdataOrder.STATUS_NEW := ⟨rfl, by decide⟩

/-- C4 (amended): with no intended status, a pass on a CANCELLED or EXPIRED
order never assigns NEW or IN_PROGRESS — provided an EXPIRED order seen
with a no-payment, all-zero-totals report is older than 21 days (a younger
one is reset to NEW, which the counterexample exhibits); moreover on
no-payment reports the current status is kept outright. -/
theorem c4_amended_nonregression (cfg : AppSettings) (now : Int)
    (race : Nat → Bool) (store : Store) (order : DocdataOrder) (report : Report)
    (hstat : order.status = DocdataOrder.STATUS_CANCELLED ∨
      order.status = DocdataOrder.STATUS_EXPIRED)
    (hage : order.status = DocdataOrder.STATUS_EXPIRED → report.payment = none →
      (report.approximateTotals.totalShopperPending = 0 ∧
       report.approximateTotals.totalAcquirerPending = 0 ∧
       report.approximateTotals.totalAcquirerApproved = 0 ∧
       report.approximateTotals.totalCaptured = 0 ∧
       report.approximateTotals.totalRefunded = 0 ∧
       report.approximateTotals.totalChargedback = 0) →
      order.created < now - 21 * 86400) :
    ∀ o' st' ev,
      store_report cfg now race store order report none = some (o', st', ev) →
      (o'.status ≠ DocdataOrder.STATUS_NEW ∧
       o'.status ≠ DocdataOrder.STATUS_IN_PROGRESS) ∧
      (report.payment = none → o'.status = order.status) := by
  intro o' st' ev h
  obtain ⟨ν, lev, ho', hev, hlev, hcase⟩ :=
    store_report_inv cfg now race store order report none o' st' ev h
  have hXs : (report_order order report).status = order.status := rfl
  have hXc : (report_order order report).created = order.created := rfl
  have hs : o'.status = assign_result (report_order order report) ν := by
    rw [ho', set_status_fst_status]
  rcases hcase with ⟨hp, hν, _, _⟩ | ⟨⟨l, hp⟩, hline⟩
  · have hν' : ν = order.status := by
      rcases hstat with hc | hc
      · by_cases hz : report.approximateTotals.totalShopperPending = 0 ∧
            report.approximateTotals.totalAcquirerPending = 0 ∧
            report.approximateTotals.totalAcquirerApproved = 0 ∧
            report.approximateTotals.totalCaptured = 0 ∧
            report.approximateTotals.totalRefunded = 0 ∧
            report.approximateTotals.totalChargedback = 0
        · rw [hν]
          simp only [no_payment_status]
          rw [if_pos hz, if_pos (hXs.trans hc)]
          exact hXs
        · rw [hν]
          simp only [no_payment_status]
          rw [if_neg hz, if_pos (Or.inr (hXs.trans hc))]
          exact hXs
      · by_cases hz : report.approximateTotals.totalShopperPending = 0 ∧
            report.approximateTotals.totalAcquirerPending = 0 ∧
            report.approximateTotals.totalAcquirerApproved = 0 ∧
            report.approximateTotals.totalCaptured = 0 ∧
            report.approximateTotals.totalRefunded = 0 ∧
            report.approximateTotals.totalChargedback = 0
        · have hold := hage hc hp hz
          rw [hν]
          simp only [no_payment_status]
          rw [if_pos hz,
            if_neg (show ¬ (report_order order report).status =
              DocdataOrder.STATUS_CANCELLED from by rw [hXs, hc]; decide),
            if_pos (hXc ▸ hold)]
          rw [hc]
          rfl
        · rw [hν]
          simp only [no_payment_status]
          rw [if_neg hz, if_pos (Or.inl (hXs.trans hc))]
          exact hXs
    have hkeep : o'.status = order.status := by
      rw [hs, hν']
      exact assign_result_self (report_order order report)
    refine ⟨⟨?_, ?_⟩, fun _ => hkeep⟩
    · rw [hkeep]
      rcases hstat with hc | hc <;> rw [hc] <;> decide
    · rw [hkeep]
      rcases hstat with hc | hc <;> rw [hc] <;> decide
  · have hνn : ν ≠ DocdataOrder.STATUS_NEW ∧ ν ≠ DocdataOrder.STATUS_IN_PROGRESS := by
      rcases hline with ⟨p, hcand⟩ | ⟨s, hfb⟩
      · have hvals := process_authorized_payment_values _ _ _ _ _
          (line_candidate_some _ _ _ _ _ hcand)
        rcases hvals with rfl | rfl | rfl | rfl | rfl <;> exact ⟨by decide, by decide⟩
      · rw [hfb]
        exact fallback_status_not_progress (report_order order report) s
          (by rw [hXs]; exact hstat.symm)
    have hXn : (report_order order report).status ≠ DocdataOrder.STATUS_NEW ∧
        (report_order order report).status ≠ DocdataOrder.STATUS_IN_PROGRESS := by
      rcases hstat with hc | hc <;> rw [hXs, hc] <;> exact ⟨by decide, by decide⟩
    refine ⟨?_, fun hpn => absurd (hp ▸ hpn) (by simp)⟩
    rcases assign_result_cases (report_order order report) ν with ha | ha | ha <;>
      rw [hs, ha]
    · exact hXn
    · exact hνn
    · exact ⟨by decide, by decide⟩

/-- Witness for the amended C4: an EXPIRED order 22 days old against the
all-zero no-payment report keeps EXPIRED. -/
theorem c4_witness :
    pass_status (store_report cfgW (22 * 86400) raceF [] orderExp reportZ none) =
      some DocdataOrder.STATUS_EXPIRED := by
  have hp : store_report cfgW (22 * 86400) raceF [] orderExp reportZ none =
      some (⟨"order-2", "EUR", 1000, "expired", 0, 1000, 0, 0, 0, 0, 0, 0⟩,
        [], []) := by decide
  have h := (c4_amended_nonregression cfgW (22 * 86400) raceF [] orderExp reportZ
    (Or.inr rfl) (fun _ _ _ => by decide) _ _ _ hp).2 rfl
  rw [hp]
  exact congrArg some h

/-- `List.any` is invariant under permutation. -/
lemma any_eq_of_perm {α : Type} (l₁ l₂ : List α) (h : l₁.Perm l₂) (f : α → Bool) :
    l₁.any f = l₂.any f := by
  cases h1 : l₁.any f
  · cases h2 : l₂.any f
    · rfl
    · rw [List.any_eq_true] at h2
      rw [List.any_eq_false] at h1
      obtain ⟨x, hx, hfx⟩ := h2
      exact absurd hfx (by simp [h1 x (h.symm.mem_iff.mp hx)])
  · cases h2 : l₂.any f
    · rw [List.any_eq_true] at h1
      rw [List.any_eq_false] at h2
      obtain ⟨x, hx, hfx⟩ := h1
      exact absurd hfx (by simp [h2 x (h.mem_iff.mp hx)])
    · rfl

/-- The margin only reads the order currency, the totals block and the
payment list up to permutation. -/
lemma success_margin_congr (cfg : AppSettings) (o₁ o₂ : DocdataOrder)
    (r₁ r₂ : Report) (hc : o₁.currency = o₂.currency)
    (ht : r₁.approximateTotals = r₂.approximateTotals)
    (hp : (r₁.payment.getD []).Perm (r₂.payment.getD [])) :
    success_margin cfg o₁ r₁ = success_margin cfg o₂ r₂ := by
  simp only [success_margin, ht, hc]
  rw [any_eq_of_perm _ _ hp]

/-- The AUTHORIZED sub-decision only reads the order currency, the totals
block and the payment list up to permutation. -/
lemma process_authorized_payment_congr (cfg : AppSettings) (o₁ o₂ : DocdataOrder)
    (r₁ r₂ : Report) (p : PaymentReport) (hc : o₁.currency = o₂.currency)
    (ht : r₁.approximateTotals = r₂.approximateTotals)
    (hp : (r₁.payment.getD []).Perm (r₂.payment.getD [])) :
    process_authorized_payment cfg o₁ r₁ p = process_authorized_payment cfg o₂ r₂ p := by
  simp only [process_authorized_payment, ht,
    success_margin_congr cfg o₁ o₂ r₁ r₂ hc ht hp]

/-- Likewise for the line candidate. -/
lemma line_candidate_congr (cfg : AppSettings) (o₁ o₂ : DocdataOrder)
    (r₁ r₂ : Report) (p : PaymentReport) (hc : o₁.currency = o₂.currency)
    (ht : r₁.approximateTotals = r₂.approximateTotals)
    (hp : (r₁.payment.getD []).Perm (r₂.payment.getD [])) :
    line_candidate cfg o₁ r₁ p = line_candidate cfg o₂ r₂ p := by
  simp only [line_candidate,
    process_authorized_payment_congr cfg o₁ o₂ r₁ r₂ p hc ht hp]

/-- One loop iteration only reads the order currency and key, the totals
block and the payment list up to permutation. -/
lemma store_report_line_congr (cfg : AppSettings) (o₁ o₂ : DocdataOrder)
    (r₁ r₂ : Report) (race : Nat → Bool) (store : Store) (p : PaymentReport)
    (hc : o₁.currency = o₂.currency) (hk : o₁.order_key = o₂.order_key)
    (ht : r₁.approximateTotals = r₂.approximateTotals)
    (hp : (r₁.payment.getD []).Perm (r₂.payment.getD [])) :
    store_report_line cfg o₁ r₁ race store p =
      store_report_line cfg o₂ r₂ race store p := by
  simp only [store_report_line, line_flags_row, hk,
    line_candidate_congr cfg o₁ o₂ r₁ r₂ p hc ht hp]

/-- Likewise for the whole loop. -/
lemma store_report_lines_loop_congr (cfg : AppSettings) (o₁ o₂ : DocdataOrder)
    (r₁ r₂ : Report) (race : Nat → Bool)
    (hc : o₁.currency = o₂.currency) (hk : o₁.order_key = o₂.order_key)
    (ht : r₁.approximateTotals = r₂.approximateTotals)
    (hp : (r₁.payment.getD []).Perm (r₂.payment.getD [])) :
    ∀ (ps : List PaymentReport) (store : Store) (acc : Option String),
      store_report_lines_loop cfg o₁ r₁ race ps store acc =
        store_report_lines_loop cfg o₂ r₂ race ps store acc := by
  intro ps
  induction ps with
  | nil => intro store acc; rfl
  | cons p rest ih =>
      intro store acc
      simp only [store_report_lines_loop,
        store_report_line_congr cfg o₁ o₂ r₁ r₂ race store p hc hk ht hp, ih]

/-- Two permutations of the same entries with pairwise-distinct ids sort to
the same list. -/
lemma insertionSort_eq_of_perm (l₁ l₂ : List PaymentReport) (hperm : l₁.Perm l₂)
    (hids : (l₁.map (fun p => p.id)).Nodup) :
    List.insertionSort (fun a b : PaymentReport => a.id ≤ b.id) l₁ =
      List.insertionSort (fun a b : PaymentReport => a.id ≤ b.id) l₂ := by
  haveI : IsTotal PaymentReport (fun a b => a.id ≤ b.id) :=
    ⟨fun a b => Nat.le_total a.id b.id⟩
  haveI : IsTrans PaymentReport (fun a b => a.id ≤ b.id) :=
    ⟨fun a b c => Nat.le_trans⟩
  haveI : IsAntisymm PaymentReport (fun a b => a.id < b.id) :=
    ⟨fun a b h1 h2 => absurd h2 (Nat.lt_asymm h1)⟩
  have p1 := List.perm_insertionSort (fun a b : PaymentReport => a.id ≤ b.id) l₁
  have p2 := List.perm_insertionSort (fun a b : PaymentReport => a.id ≤ b.id) l₂
  have hp := p1.trans (hperm.trans p2.symm)
  have hids₂ : (l₂.map (fun p => p.id)).Nodup :=
    ((hperm.map (fun p => p.id)).nodup_iff).mp hids
  have hn1 : ((List.insertionSort (fun a b : PaymentReport => a.id ≤ b.id) l₁).map
      (fun p => p.id)).Nodup := ((p1.map (fun p => p.id)).nodup_iff).mpr hids
  have hn2 : ((List.insertionSort (fun a b : PaymentReport => a.id ≤ b.id) l₂).map
      (fun p => p.id)).Nodup := ((p2.map (fun p => p.id)).nodup_iff).mpr hids₂
  rw [List.Nodup, List.pairwise_map] at hn1 hn2
  have hs1 := List.sorted_insertionSort (fun a b : PaymentReport => a.id ≤ b.id) l₁
  have hs2 := List.sorted_insertionSort (fun a b : PaymentReport => a.id ≤ b.id) l₂
  have hlt1 : (List.insertionSort (fun a b : PaymentReport => a.id ≤ b.id) l₁).Pairwise
      (fun a b => a.id < b.id) :=
    (hs1.and hn1).imp fun hab => lt_of_le_of_ne hab.1 hab.2
  have hlt2 : (List.insertionSort (fun a b : PaymentReport => a.id ≤ b.id) l₂).Pairwise
      (fun a b => a.id < b.id) :=
    (hs2.and hn2).imp fun hab => lt_of_le_of_ne hab.1 hab.2
  exact List.eq_of_perm_of_sorted hp hlt1 hlt2

/-- `_store_report_lines` is invariant under permuting the report's payment
entries, when their ids are pairwise distinct. -/
lemma store_report_lines_perm (cfg : AppSettings) (X : DocdataOrder)
    (t : ApproximateTotals) (l₁ l₂ : List PaymentReport) (race : Nat → Bool)
    (store : Store) (hperm : l₁.Perm l₂)
    (hids : (l₁.map (fun p => p.id)).Nodup) :
    store_report_lines cfg X ⟨t, some l₁⟩ race store =
      store_report_lines cfg X ⟨t, some l₂⟩ race store := by
  have hsort := insertionSort_eq_of_perm l₁ l₂ hperm hids
  have hgetD : ((⟨t, some l₁⟩ : Report).payment.getD []).Perm
      ((⟨t, some l₂⟩ : Report).payment.getD []) := hperm
  simp only [store_report_lines, Option.getD_some]
  rw [hsort,
    store_report_lines_loop_congr cfg X X ⟨t, some l₁⟩ ⟨t, some l₂⟩ race rfl rfl rfl hgetD]

/-- C2: the engine sorts the payment entries by numeric id ascending before
processing, so feeding the same report with its entries permuted (ids
pairwise distinct, as they are payment identities) produces the identical
pass result: order status, persisted line set and events. -/
theorem c2_determinism_under_reordering (cfg : AppSettings) (now : Int)
    (race : Nat → Bool) (store : Store) (order : DocdataOrder)
    (t : ApproximateTotals) (l₁ l₂ : List PaymentReport)
    (intended : Option String) (hperm : l₁.Perm l₂)
    (hids : (l₁.map (fun p => p.id)).Nodup) :
    store_report cfg now race store order ⟨t, some l₁⟩ intended =
      store_report cfg now race store order ⟨t, some l₂⟩ intended := by
  have hX : report_order order ⟨t, some l₁⟩ = report_order order ⟨t, some l₂⟩ := rfl
  simp only [store_report]
  rw [hX, store_report_lines_perm cfg (report_order order ⟨t, some l₂⟩) t l₁ l₂
    race store hperm hids]

/-- Witness for C2: swapping the two entries of a concrete report leaves
the pass result unchanged. -/
theorem c2_witness :
    store_report cfgW 100 raceF [] orderW ⟨totalsW, some [payW, payW2]⟩ none =
      store_report cfgW 100 raceF [] orderW ⟨totalsW, some [payW2, payW]⟩ none := by
  exact c2_determinism_under_reordering cfgW 100 raceF [] orderW totalsW
    [payW, payW2] [payW2, payW] none (by decide) (by decide)


/-- After a non-aborting loop iteration, the processed entry's row is
present and carries the recomputed content. -/
lemma step_find_self (cfg : AppSettings) (X : DocdataOrder) (report : Report)
    (race : Nat → Bool) (store : Store) (q : PaymentReport)
    (res : Store × List Event × Option String)
    (h : store_report_line cfg X report race store q = some res) :
    ∃ fk, res.1.find? (fun r => r.payment_id == q.id) = some (line_row q fk) := by
  rw [store_report_line_eq] at h
  rcases hfind : store.find? (fun r => r.payment_id == q.id) with _ | row <;>
    simp only [hfind] at h
  · cases hr : race q.id <;> rw [hr] at h
    · rw [if_neg Bool.false_ne_true] at h
      injection h with h
      subst h
      exact ⟨X.order_key, find?_upsert_self store (line_row q X.order_key)⟩
    · rw [if_pos rfl] at h
      exact Option.noConfusion h
  · by_cases hrow : row = line_row q row.docdata_order
    · rw [if_pos hrow] at h
      injection h with h
      subst h
      show ∃ fk, store.find? (fun r => r.payment_id == q.id) = some (line_row q fk)
      rw [hfind]
      exact ⟨row.docdata_order, congrArg some hrow⟩
    · rw [if_neg hrow] at h
      injection h with h
      subst h
      exact ⟨row.docdata_order, find?_upsert_self store (line_row q row.docdata_order)⟩

/-- A non-aborting loop iteration does not disturb rows of other payment
ids. -/
lemma step_find_ne (cfg : AppSettings) (X : DocdataOrder) (report : Report)
    (race : Nat → Bool) (store : Store) (q : PaymentReport) (pid : Nat)
    (res : Store × List Event × Option String)
    (h : store_report_line cfg X report race store q = some res)
    (hne : pid ≠ q.id) :
    res.1.find? (fun r => r.payment_id == pid) =
      store.find? (fun r => r.payment_id == pid) := by
  rw [store_report_line_eq] at h
  rcases hfind : store.find? (fun r => r.payment_id == q.id) with _ | row <;>
    simp only [hfind] at h
  · cases hr : race q.id <;> rw [hr] at h
    · rw [if_neg Bool.false_ne_true] at h
      injection h with h
      subst h
      exact find?_upsert_ne store (line_row q X.order_key) pid hne
    · rw [if_pos rfl] at h
      exact Option.noConfusion h
  · by_cases hrow : row = line_row q row.docdata_order
    · rw [if_pos hrow] at h
      injection h with h
      subst h
      rfl
    · rw [if_neg hrow] at h
      injection h with h
      subst h
      exact find?_upsert_ne store (line_row q row.docdata_order) pid hne

/-- A non-aborting loop does not disturb rows whose id does not occur in
the list. -/
lemma loop_preserves (cfg : AppSettings) (X : DocdataOrder) (report : Report)
    (race : Nat → Bool) :
    ∀ (ps : List PaymentReport) (store : Store) (acc : Option String) (pid : Nat)
      (res : Option String × Store × List Event),
      (∀ q ∈ ps, pid ≠ q.id) →
      store_report_lines_loop cfg X report race ps store acc = some res →
      res.2.1.find? (fun r => r.payment_id == pid) =
        store.find? (fun r => r.payment_id == pid) := by
  intro ps
  induction ps with
  | nil =>
      intro store acc pid res _ h
      injection h with h
      subst h
      rfl
  | cons q rest ih =>
      intro store acc pid res hne h
      simp only [store_report_lines_loop] at h
      split at h
      · exact Option.noConfusion h
      · rename_i step hstep
        split at h
        · exact Option.noConfusion h
        · rename_i next hnext
          injection h with h
          subst h
          show next.2.1.find? (fun r => r.payment_id == pid) = _
          rw [ih _ _ pid next (fun r hr => hne r (List.mem_cons_of_mem q hr)) hnext]
          exact step_find_ne cfg X report race store q pid step hstep
            (hne q (List.mem_cons_self q rest))

/-- After a non-aborting loop, every processed entry's row is present with
the recomputed content (ids pairwise distinct). -/
lemma loop_sync (cfg : AppSettings) (X : DocdataOrder) (report : Report)
    (race : Nat → Bool) :
    ∀ (ps : List PaymentReport) (store : Store) (acc : Option String)
      (res : Option String × Store × List Event),
      (ps.map (fun p => p.id)).Nodup →
      store_report_lines_loop cfg X report race ps store acc = some res →
      ∀ p ∈ ps, ∃ fk,
        res.2.1.find? (fun r => r.payment_id == p.id) = some (line_row p fk) := by
  intro ps
  induction ps with
  | nil => intro store acc res _ _ p hp; cases hp
  | cons q rest ih =>
      intro store acc res hnodup h p hp
      rw [List.map_cons, List.nodup_cons] at hnodup
      obtain ⟨hni, hnodup'⟩ := hnodup
      simp only [store_report_lines_loop] at h
      split at h
      · exact Option.noConfusion h
      · rename_i step hstep
        split at h
        · exact Option.noConfusion h
        · rename_i next hnext
          injection h with h
          subst h
          rcases List.mem_cons.mp hp with rfl | hp'
          · obtain ⟨fk, hfk⟩ := step_find_self cfg X report race store p step hstep
            refine ⟨fk, ?_⟩
            show next.2.1.find? (fun r => r.payment_id == p.id) = _
            rw [loop_preserves cfg X report race rest _ _ p.id next ?_ hnext, hfk]
            intro r hr hid
            exact hni (by rw [hid]; exact List.mem_map_of_mem (fun p => p.id) hr)
          · exact ih _ _ next hnodup' hnext p hp'

/-- On a store already synchronized with the entries, the loop never hits
the race (every lookup succeeds) and is a no-op: it writes nothing and
emits nothing, only folding the candidates. -/
lemma loop_noop (cfg : AppSettings) (X : DocdataOrder) (report : Report)
    (race : Nat → Bool) :
    ∀ (ps : List PaymentReport) (store : Store) (acc : Option String),
      (∀ p ∈ ps, ∃ fk, store.find? (fun r => r.payment_id == p.id) =
        some (line_row p fk)) →
      store_report_lines_loop cfg X report race ps store acc =
        some (cand_fold cfg X report ps acc, store, []) := by
  intro ps
  induction ps with
  | nil => intro store acc _; rfl
  | cons q rest ih =>
      intro store acc hsync
      obtain ⟨fk, hfk⟩ := hsync q (List.mem_cons_self q rest)
      have hstep : store_report_line cfg X report race store q =
          some (store, [], line_candidate cfg X report q) := by
        rw [store_report_line_eq]
        simp only [hfk]
        rw [if_pos (show line_row q fk = line_row q (line_row q fk).docdata_order
          from rfl)]
      simp only [store_report_lines_loop, hstep, cand_fold]
      rw [ih _ _ fun p hp => hsync p (List.mem_cons_of_mem q hp)]
      rfl

/-- `cand_fold` only reads the order currency, the totals block and the
payment list up to permutation. -/
lemma cand_fold_congr (cfg : AppSettings) (o₁ o₂ : DocdataOrder) (r₁ r₂ : Report)
    (hc : o₁.currency = o₂.currency)
    (ht : r₁.approximateTotals = r₂.approximateTotals)
    (hp : (r₁.payment.getD []).Perm (r₂.payment.getD [])) :
    ∀ (ps : List PaymentReport) (acc : Option String),
      cand_fold cfg o₁ r₁ ps acc = cand_fold cfg o₂ r₂ ps acc := by
  intro ps
  induction ps with
  | nil => intro acc; rfl
  | cons p rest ih =>
      intro acc
      simp only [cand_fold, line_candidate_congr cfg o₁ o₂ r₁ r₂ p hc ht hp, ih]

/-- A candidate produced by the sub-decision is a recognized status. -/
lemma process_authorized_payment_some_mem (cfg : AppSettings) (o : DocdataOrder)
    (r : Report) (p : PaymentReport) (s : String)
    (h : process_authorized_payment cfg o r p = some s) :
    s ∈ DocdataOrder.STATUS_CHOICES := by
  rcases process_authorized_payment_values cfg o r p s h with rfl | rfl | rfl | rfl | rfl <;>
    decide


/-- A successful lines pass leaves every report entry's row synchronized in
the resulting store (ids pairwise distinct). -/
lemma store_report_lines_sync (cfg : AppSettings) (X : DocdataOrder) (report : Report)
    (race : Nat → Bool) (store : Store) (ν : String) (stL : Store) (lev : List Event)
    (hids : ((report.payment.getD []).map (fun p => p.id)).Nodup)
    (h : store_report_lines cfg X report race store = some (ν, stL, lev)) :
    ∀ p ∈ List.insertionSort (fun a b : PaymentReport => a.id ≤ b.id)
        (report.payment.getD []),
      ∃ fk, stL.find? (fun r => r.payment_id == p.id) = some (line_row p fk) := by
  have hids' : ((List.insertionSort (fun a b : PaymentReport => a.id ≤ b.id)
      (report.payment.getD [])).map (fun p => p.id)).Nodup :=
    (((List.perm_insertionSort (fun a b : PaymentReport => a.id ≤ b.id)
      (report.payment.getD [])).map (fun p => p.id)).nodup_iff).mpr hids
  simp only [store_report_lines] at h
  split at h
  · exact Option.noConfusion h
  · rename_i looped hloop
    have hstL : stL = looped.2.1 := by
      split at h
      · simp only [Option.some.injEq, Prod.mk.injEq] at h
        exact h.2.1.symm
      · split at h
        · exact Option.noConfusion h
        · simp only [Option.some.injEq, Prod.mk.injEq] at h
          exact h.2.1.symm
    rw [hstL]
    exact loop_sync cfg X report race _ store none looped hids' hloop

/-- Replaying the lines pass on its own output store writes nothing and
emits nothing; the status comes out of the same branch: the identical
(recognized) line candidate, or the fallback mapping of the same last
entry evaluated at the new order status. -/
lemma store_report_lines_pass2 (cfg : AppSettings) (X X' : DocdataOrder)
    (report : Report) (race₁ race₂ : Nat → Bool) (store : Store)
    (ν₁ : String) (stL : Store) (lev : List Event)
    (hids : ((report.payment.getD []).map (fun p => p.id)).Nodup)
    (hcur : X'.currency = X.currency)
    (h : store_report_lines cfg X report race₁ store = some (ν₁, stL, lev)) :
    ∃ ν₂, store_report_lines cfg X' report race₂ stL = some (ν₂, stL, []) ∧
      ((ν₂ = ν₁ ∧ ν₁ ∈ DocdataOrder.STATUS_CHOICES) ∨
       (∃ s, ν₁ = fallback_status X s ∧ ν₂ = fallback_status X' s)) := by
  have hsync := store_report_lines_sync cfg X report race₁ store ν₁ stL lev hids h
  have hloop2 := loop_noop cfg X' report race₂
    (List.insertionSort (fun a b : PaymentReport => a.id ≤ b.id)
      (report.payment.getD [])) stL none hsync
  have hcand : cand_fold cfg X' report
      (List.insertionSort (fun a b : PaymentReport => a.id ≤ b.id)
        (report.payment.getD [])) none =
      cand_fold cfg X report
        (List.insertionSort (fun a b : PaymentReport => a.id ≤ b.id)
          (report.payment.getD [])) none :=
    cand_fold_congr cfg X' X report report hcur rfl (List.Perm.refl _) _ none
  simp only [store_report_lines] at h ⊢
  split at h
  · exact Option.noConfusion h
  · rename_i looped hloop
    have hc1 := store_report_lines_loop_cand cfg X report race₁ _ store none looped hloop
    split at h
    · rename_i s hl
      simp only [Option.some.injEq, Prod.mk.injEq] at h
      obtain ⟨hν, hst, hlev⟩ := h
      have hlfold : cand_fold cfg X report
          (List.insertionSort (fun a b : PaymentReport => a.id ≤ b.id)
            (report.payment.getD [])) none = some s := hc1.symm.trans hl
      have hmem : ν₁ ∈ DocdataOrder.STATUS_CHOICES := by
        rcases cand_fold_some cfg X report _ none s hlfold with ⟨p, _, hc⟩ | hacc
        · rw [← hν]
          exact process_authorized_payment_some_mem cfg X report p s
            (line_candidate_some cfg X report p s hc)
        · cases hacc
      refine ⟨s, ?_, Or.inl ⟨hν, hmem⟩⟩
      simp only [hloop2, hcand, hlfold]
    · rename_i hl
      have hlfold : cand_fold cfg X report
          (List.insertionSort (fun a b : PaymentReport => a.id ≤ b.id)
            (report.payment.getD [])) none = none := hc1.symm.trans hl
      split at h
      · exact Option.noConfusion h
      · rename_i last hlast
        simp only [Option.some.injEq, Prod.mk.injEq] at h
        obtain ⟨hν, hst, hlev⟩ := h
        refine ⟨fallback_status X' last.authorization.status, ?_,
          Or.inr ⟨last.authorization.status, hν.symm, rfl⟩⟩
        simp only [hloop2, hcand, hlfold, hlast]


/-- A second assignment whose computed status equals the current one, or is
unrecognized while the current one is already UNKNOWN, changes nothing and
emits nothing. -/
lemma finish_second_noop (X' : DocdataOrder) (ν₂ : String) (st : Store)
    (h : ν₂ = X'.status ∨
      (ν₂ ∉ DocdataOrder.STATUS_CHOICES ∧
       X'.status = DocdataOrder.STATUS_UNKNOWN)) :
    finish_report X' (some (ν₂, st, [])) = some (X', st, []) := by
  rw [finish_report_some]
  rcases h with h | ⟨hn, hu⟩
  · rw [set_status_eq, if_pos h.symm]
    simp
  · by_cases he : X'.status = ν₂
    · rw [set_status_eq, if_pos he]
      simp
    · rw [set_status_eq, if_neg he, if_neg hn]
      have hX : ({ X' with status := DocdataOrder.STATUS_UNKNOWN } : DocdataOrder) = X' := by
        rw [← hu]
      simp [hX, hu]

/-- The fallback adjustment, written as one conditional. -/
lemma fallback_status_eq (X : DocdataOrder) (s : String) :
    fallback_status X s =
      if (X.status = DocdataOrder.STATUS_EXPIRED ∨
          X.status = DocdataOrder.STATUS_CANCELLED) ∧
         ((status_mapping.lookup s).getD DocdataOrder.STATUS_UNKNOWN =
            DocdataOrder.STATUS_NEW ∨
          (status_mapping.lookup s).getD DocdataOrder.STATUS_UNKNOWN =
            DocdataOrder.STATUS_IN_PROGRESS) then
        X.status
      else (status_mapping.lookup s).getD DocdataOrder.STATUS_UNKNOWN := rfl

/-- The no-payment heuristics, written as nested conditionals. -/
lemma no_payment_status_eq (now : Int) (X : DocdataOrder) (t : ApproximateTotals)
    (intended : Option String) :
    no_payment_status now X t intended =
      if t.totalShopperPending = 0 ∧ t.totalAcquirerPending = 0 ∧
         t.totalAcquirerApproved = 0 ∧ t.totalCaptured = 0 ∧
         t.totalRefunded = 0 ∧ t.totalChargedback = 0 then
        if X.status = DocdataOrder.STATUS_CANCELLED then X.status
        else if X.created < now - 21 * 86400 then
          py_or intended DocdataOrder.STATUS_EXPIRED
        else py_or intended DocdataOrder.STATUS_NEW
      else
        if X.status = DocdataOrder.STATUS_EXPIRED ∨
           X.status = DocdataOrder.STATUS_CANCELLED then X.status
        else py_or intended DocdataOrder.STATUS_NEW := rfl

/-- Re-running the fallback mapping at the status it just produced yields
that status again (or stays coerced at UNKNOWN when the mapped value is
unrecognized). -/
lemma fallback_status_stable (X : DocdataOrder) (s : String) :
    fallback_status { X with status := assign_result X (fallback_status X s) } s =
      assign_result X (fallback_status X s) ∨
    (fallback_status { X with status := assign_result X (fallback_status X s) } s ∉
        DocdataOrder.STATUS_CHOICES ∧
     assign_result X (fallback_status X s) = DocdataOrder.STATUS_UNKNOWN) := by
  by_cases hg : (X.status = DocdataOrder.STATUS_EXPIRED ∨
      X.status = DocdataOrder.STATUS_CANCELLED) ∧
      ((status_mapping.lookup s).getD DocdataOrder.STATUS_UNKNOWN =
        DocdataOrder.STATUS_NEW ∨
       (status_mapping.lookup s).getD DocdataOrder.STATUS_UNKNOWN =
        DocdataOrder.STATUS_IN_PROGRESS)
  · have hfb : fallback_status X s = X.status := by
      rw [fallback_status_eq, if_pos hg]
    rw [hfb, assign_result_self]
    rw [show ({ X with status := X.status } : DocdataOrder) = X from rfl, hfb]
    exact Or.inl rfl
  · have hfb : fallback_status X s =
        (status_mapping.lookup s).getD DocdataOrder.STATUS_UNKNOWN := by
      rw [fallback_status_eq, if_neg hg]
    have hpre : ∀ σ : String,
        fallback_status { X with status := σ } s =
          if (σ = DocdataOrder.STATUS_EXPIRED ∨ σ = DocdataOrder.STATUS_CANCELLED) ∧
             ((status_mapping.lookup s).getD DocdataOrder.STATUS_UNKNOWN =
                DocdataOrder.STATUS_NEW ∨
              (status_mapping.lookup s).getD DocdataOrder.STATUS_UNKNOWN =
                DocdataOrder.STATUS_IN_PROGRESS) then σ
          else (status_mapping.lookup s).getD DocdataOrder.STATUS_UNKNOWN := by
      intro σ
      rw [fallback_status_eq]
    rw [hfb]
    by_cases hXm : X.status =
        (status_mapping.lookup s).getD DocdataOrder.STATUS_UNKNOWN
    · have ha : assign_result X
          ((status_mapping.lookup s).getD DocdataOrder.STATUS_UNKNOWN) =
          (status_mapping.lookup s).getD DocdataOrder.STATUS_UNKNOWN := by
        unfold assign_result
        rw [if_pos hXm, hXm]
      rw [ha, hpre]
      split_ifs <;> exact Or.inl rfl
    · by_cases hmem : (status_mapping.lookup s).getD DocdataOrder.STATUS_UNKNOWN ∈
          DocdataOrder.STATUS_CHOICES
      · rw [assign_result_of_mem X _ hmem, hpre]
        split_ifs <;> exact Or.inl rfl
      · have ha : assign_result X
            ((status_mapping.lookup s).getD DocdataOrder.STATUS_UNKNOWN) =
            DocdataOrder.STATUS_UNKNOWN := by
          unfold assign_result
          rw [if_neg hXm, if_neg hmem]
        rw [ha, hpre, if_neg (fun hc => absurd hc.1 (by decide))]
        exact Or.inr ⟨hmem, rfl⟩

/-- Re-running the no-payment heuristics at the status they just produced
yields that status again (or stays coerced at UNKNOWN when an unrecognized
intended status was requested). -/
lemma no_payment_status_stable (now : Int) (t : ApproximateTotals)
    (intended : Option String) (X : DocdataOrder) :
    no_payment_status now
        { X with status := assign_result X (no_payment_status now X t intended) }
        t intended =
      assign_result X (no_payment_status now X t intended) ∨
    (no_payment_status now
        { X with status := assign_result X (no_payment_status now X t intended) }
        t intended ∉ DocdataOrder.STATUS_CHOICES ∧
     assign_result X (no_payment_status now X t intended) =
       DocdataOrder.STATUS_UNKNOWN) := by
  by_cases hz : t.totalShopperPending = 0 ∧ t.totalAcquirerPending = 0 ∧
      t.totalAcquirerApproved = 0 ∧ t.totalCaptured = 0 ∧
      t.totalRefunded = 0 ∧ t.totalChargedback = 0
  · by_cases hcan : X.status = DocdataOrder.STATUS_CANCELLED
    · have hν : no_payment_status now X t intended = X.status := by
        rw [no_payment_status_eq, if_pos hz, if_pos hcan]
      rw [hν, assign_result_self,
        show ({ X with status := X.status } : DocdataOrder) = X from rfl, hν]
      exact Or.inl rfl
    · have hν : no_payment_status now X t intended =
          (if X.created < now - 21 * 86400 then
            py_or intended DocdataOrder.STATUS_EXPIRED
          else py_or intended DocdataOrder.STATUS_NEW) := by
        rw [no_payment_status_eq, if_pos hz, if_neg hcan]
      have hpre : ∀ σ : String,
          no_payment_status now { X with status := σ } t intended =
            if σ = DocdataOrder.STATUS_CANCELLED then σ
            else (if X.created < now - 21 * 86400 then
              py_or intended DocdataOrder.STATUS_EXPIRED
            else py_or intended DocdataOrder.STATUS_NEW) := by
        intro σ
        rw [no_payment_status_eq, if_pos hz]
      rw [hν]
      by_cases hXu : X.status =
          (if X.created < now - 21 * 86400 then
            py_or intended DocdataOrder.STATUS_EXPIRED
          else py_or intended DocdataOrder.STATUS_NEW)
      · have ha : assign_result X
            (if X.created < now - 21 * 86400 then
              py_or intended DocdataOrder.STATUS_EXPIRED
            else py_or intended DocdataOrder.STATUS_NEW) =
            (if X.created < now - 21 * 86400 then
              py_or intended DocdataOrder.STATUS_EXPIRED
            else py_or intended DocdataOrder.STATUS_NEW) := by
          unfold assign_result
          rw [if_pos hXu, hXu]
        rw [ha, hpre]
        split_ifs <;> exact Or.inl rfl
      · by_cases hmem : (if X.created < now - 21 * 86400 then
            py_or intended DocdataOrder.STATUS_EXPIRED
          else py_or intended DocdataOrder.STATUS_NEW) ∈
            DocdataOrder.STATUS_CHOICES
        · rw [assign_result_of_mem X _ hmem, hpre]
          split_ifs <;> exact Or.inl rfl
        · have ha : assign_result X
              (if X.created < now - 21 * 86400 then
                py_or intended DocdataOrder.STATUS_EXPIRED
              else py_or intended DocdataOrder.STATUS_NEW) =
              DocdataOrder.STATUS_UNKNOWN := by
            unfold assign_result
            rw [if_neg hXu, if_neg hmem]
          rw [ha, hpre, if_neg (by decide)]
          exact Or.inr ⟨hmem, rfl⟩
  · have hpre : ∀ σ : String,
        no_payment_status now { X with status := σ } t intended =
          if σ = DocdataOrder.STATUS_EXPIRED ∨ σ = DocdataOrder.STATUS_CANCELLED then σ
          else py_or intended DocdataOrder.STATUS_NEW := by
      intro σ
      rw [no_payment_status_eq, if_neg hz]
    by_cases hec : X.status = DocdataOrder.STATUS_EXPIRED ∨
        X.status = DocdataOrder.STATUS_CANCELLED
    · have hν : no_payment_status now X t intended = X.status := by
        rw [no_payment_status_eq, if_neg hz, if_pos hec]
      rw [hν, assign_result_self,
        show ({ X with status := X.status } : DocdataOrder) = X from rfl, hν]
      exact Or.inl rfl
    · have hν : no_payment_status now X t intended =
          py_or intended DocdataOrder.STATUS_NEW := by
        rw [no_payment_status_eq, if_neg hz, if_neg hec]
      rw [hν]
      by_cases hXw : X.status = py_or intended DocdataOrder.STATUS_NEW
      · have ha : assign_result X (py_or intended DocdataOrder.STATUS_NEW) =
            py_or intended DocdataOrder.STATUS_NEW := by
          unfold assign_result
          rw [if_pos hXw, hXw]
        rw [ha, hpre]
        split_ifs <;> exact Or.inl rfl
      · by_cases hmem : py_or intended DocdataOrder.STATUS_NEW ∈
            DocdataOrder.STATUS_CHOICES
        · rw [assign_result_of_mem X _ hmem, hpre]
          split_ifs <;> exact Or.inl rfl
        · have ha : assign_result X (py_or intended DocdataOrder.STATUS_NEW) =
              DocdataOrder.STATUS_UNKNOWN := by
            unfold assign_result
            rw [if_neg hXw, if_neg hmem]
          rw [ha, hpre, if_neg (by decide)]
          exact Or.inr ⟨hmem, rfl⟩


/-- C7: replaying an identical report (same report, clock, and intended
status; payment ids pairwise distinct) on the state a successful pass just
produced changes nothing: the second pass succeeds, emits no events at all,
and leaves the order and the persisted line set exactly as they were. -/
theorem c7_idempotent_replay (cfg : AppSettings) (now : Int)
    (race₁ race₂ : Nat → Bool) (store : Store) (order : DocdataOrder)
    (report : Report) (intended : Option String)
    (hids : ((report.payment.getD []).map (fun p => p.id)).Nodup)
    (o₁ : DocdataOrder) (st₁ : Store) (ev₁ : List Event)
    (h1 : store_report cfg now race₁ store order report intended = some (o₁, st₁, ev₁)) :
    store_report cfg now race₂ st₁ o₁ report intended = some (o₁, st₁, []) := by
  rcases hp : report.payment with _ | l
  · simp only [store_report, hp, finish_report_some, Option.some.injEq,
      Prod.mk.injEq] at h1
    obtain ⟨ho, hst, _⟩ := h1
    subst hst
    rw [set_status_fst] at ho
    subst ho
    simp only [store_report, hp]
    exact finish_second_noop _ _ store
      (no_payment_status_stable now report.approximateTotals intended
        (report_order order report))
  · simp only [store_report, hp] at h1
    rcases hlr : store_report_lines cfg (report_order order report) report race₁ store
      with _ | ⟨ν₁, stL, lev⟩
    · rw [hlr] at h1
      cases h1
    · rw [hlr, finish_report_some] at h1
      simp only [Option.some.injEq, Prod.mk.injEq] at h1
      obtain ⟨ho, hst, _⟩ := h1
      subst hst
      rw [set_status_fst] at ho
      subst ho
      obtain ⟨ν₂, hlines2, hbranch⟩ := store_report_lines_pass2 cfg
        (report_order order report)
        { report_order order report with
            status := assign_result (report_order order report) ν₁ }
        report race₁ race₂ store ν₁ stL lev hids rfl hlr
      simp only [store_report, hp]
      have hro : report_order
          { report_order order report with
              status := assign_result (report_order order report) ν₁ } report =
          { report_order order report with
              status := assign_result (report_order order report) ν₁ } := rfl
      rw [hro, hlines2]
      apply finish_second_noop
      rcases hbranch with ⟨hνeq, hmem⟩ | ⟨s, hν₁, hν₂⟩
      · left
        rw [hνeq]
        show ν₁ = assign_result (report_order order report) ν₁
        exact (assign_result_of_mem (report_order order report) ν₁ hmem).symm
      · subst hν₁
        subst hν₂
        exact fallback_status_stable (report_order order report) s

/-- Witness for C7: replaying a concrete two-line report on the state of
its own first pass yields the same order and store and no events. -/
theorem c7_witness :
    store_report cfgW 100 raceF
      [line_row payW "order-1", line_row payW2 "order-1"]
      ⟨"order-1", "EUR", 1000, "paid", 0, 1000, 0, 0, 0, 1000, 0, 0⟩
      ⟨totalsW, some [payW2, payW]⟩ none =
    some (⟨"order-1", "EUR", 1000, "paid", 0, 1000, 0, 0, 0, 1000, 0, 0⟩,
      [line_row payW "order-1", line_row payW2 "order-1"], []) := by
  have h := c7_idempotent_replay cfgW 100 raceF raceF [] orderW
    ⟨totalsW, some [payW2, payW]⟩ none (by decide)
    ⟨"order-1", "EUR", 1000, "paid", 0, 1000, 0, 0, 0, 1000, 0, 0⟩
    [line_row payW "order-1", line_row payW2 "order-1"]
    [Event.payment_added 1, Event.payment_added 2,
     Event.order_status_changed "pending" "paid"]
    (by decide)
  exact h


/-- C10: a report whose payment list is present but empty makes the pass
abort with an exception (the loop runs zero times, no candidate status
exists, and the fallback indexes the last element of the empty sorted
list), so no status is assigned and nothing is persisted. -/
theorem c10_empty_payment_list_aborts (cfg : AppSettings) (now : Int) (race : Nat → Bool)
    (store : Store) (order : DocdataOrder) (totals : ApproximateTotals)
    (indented_status : Option String) :
    store_report cfg now race store order ⟨totals, some []⟩ indented_status = none := rfl

end OscarDocdata
